import Mathlib

/-!
# Verification of the reaction model (`src/kinetics/Reaction.cpp`)

A shallow embedding of the reaction data model and the operations of
`Reaction.cpp`: the equation parser, the three-body / falloff collision-partner
resolvers, the species/balance checkers, the order-validity check, the
`isThreeBody` classification heuristic, and the rate-coefficient unit
calculator.

Modelling conventions:
* `double` is modelled as `ℚ` (the algorithms only ever compare, add, multiply
  and divide; no transcendental functions occur in the verified slice).
* `std::map<std::string, double>` (`Composition`) is modelled as an association
  list with unique keys; iteration order (key-sorted in C++, insertion-ordered
  here) is not observable by any verified property.
* `size_t` index arithmetic involving `npos` in the parser is modelled with
  `Option Nat`, translating the deliberate unsigned wrap-arounds
  (`npos == i-2` holds exactly when `i = 1`, and so on).
* Fallible routines (`throw InputFileError`) return `Except`.
-/

namespace Cantera

/-- A stoichiometric composition: species name to coefficient, modelling
`Cantera::Composition = std::map<std::string, double>`. -/
abbrev Composition := List (String × ℚ)

/-- Lookup in a composition (`map::find`). -/
def compFind? (c : Composition) (k : String) : Option ℚ :=
  (c.find? (fun p => p.1 == k)).map (·.2)

/-- `map::count` for a key: whether the key is present. -/
def compHas (c : Composition) (k : String) : Bool :=
  (compFind? c k).isSome

/-- `c[k] += v` (`operator[]` inserts a zero default, then adds). -/
def compAdd (c : Composition) (k : String) (v : ℚ) : Composition :=
  match c with
  | [] => [(k, v)]
  | p :: rest => if p.1 == k then (p.1, p.2 + v) :: rest else p :: compAdd rest k v

/-- `c[k] = v` (insert or overwrite). -/
def compSet (c : Composition) (k : String) (v : ℚ) : Composition :=
  match c with
  | [] => [(k, v)]
  | p :: rest => if p.1 == k then (p.1, v) :: rest else p :: compSet rest k v

/-- `map::erase` by key. -/
def compErase (c : Composition) (k : String) : Composition :=
  c.filter (fun p => p.1 != k)

/-- `c[k]` read with the `operator[]` default of `0.0` for absent keys. -/
def compGetD (c : Composition) (k : String) : ℚ :=
  (compFind? c k).getD 0

/-- C++ `trunc` (round toward zero) on the rational model of `double`. -/
def ratTrunc (q : ℚ) : ℤ :=
  if q < 0 then ⌈q⌉ else ⌊q⌋

/-- The third-body data owned by three-body and falloff reactions
(`Cantera::ThirdBody`). Default constructed state: `default_efficiency = 1`,
no efficiencies, no specified collision partner, mass-action semantics. -/
structure ThirdBody where
  default_efficiency : ℚ := 1
  efficiencies : Composition := []
  specified_collision_partner : Bool := false
  mass_action : Bool := true
  deriving DecidableEq, Repr

/-- The reaction entity (`Cantera::Reaction`): parsed composition, flags,
reaction orders, validity flag, and the optionally owned third body
(present exactly for the ThreeBody/Falloff variants). -/
structure Reaction where
  reactants : Composition := []
  products : Composition := []
  reversible : Bool := true
  duplicate : Bool := false
  orders : Composition := []
  allow_nonreactant_orders : Bool := false
  allow_negative_orders : Bool := false
  m_valid : Bool := true
  third_body : Option ThirdBody := none
  deriving DecidableEq, Repr

/-- Physical units (`Cantera::Units`), reduced to the dimensions this file
ever constructs: a numeric factor and metre/kilogram/second exponents. -/
structure Units where
  factor : ℚ
  m : ℚ
  kg : ℚ
  s : ℚ
  deriving DecidableEq, Repr

/-- `Units(1.0, 0, 0, -1)`: per-second. -/
def perSecond : Units := ⟨1, 0, 0, -1⟩

/-- Dimensionless unit. -/
def unitsOne : Units := ⟨1, 0, 0, 0⟩

/-- A thermodynamic phase as consumed by `Reaction.cpp`
(`Cantera::ThermoPhase` / `SurfPhase` through the narrow interface used here):
element list, species list, per-(species, element) atom counts, per-species
site occupancy, spatial dimensionality, and standard-concentration units. -/
structure ThermoPhase where
  elements : List String
  species : List String
  nAtoms : Nat → Nat → ℚ
  siteSize : Nat → ℚ
  nDim : Nat
  standardConcentrationUnits : Units

/-- `ThermoPhase::speciesIndex`: index of a species name, or the list length
(standing for `npos`) when absent; callers always guard with `!= npos`. -/
def ThermoPhase.speciesIndex (ph : ThermoPhase) (name : String) : Nat :=
  ph.species.findIdx (fun s => s == name)

/-- The governing kinetics mechanism as consumed by `Reaction.cpp`
(`Cantera::Kinetics` through the narrow interface used here). -/
structure Kinetics where
  species : List String
  skipUndeclaredSpecies : Bool
  skipUndeclaredThirdBodies : Bool
  speciesPhase : String → ThermoPhase
  reactionPhase : ThermoPhase
  surfacePhase : ThermoPhase

/-- `Kinetics::kineticsSpeciesIndex(name) == npos` iff the name is not in the
mechanism's species list. -/
def Kinetics.declares (kin : Kinetics) (name : String) : Bool :=
  kin.species.contains name

/-! ## Equation tokenizer and parser -/

/-- Modelled from the spec: `tokenizeString` (from `base/stringUtils.cpp`,
which is not part of the provided sources) splits the equation into
whitespace-delimited tokens ("split the equation into whitespace/operator-
delimited tokens"). -/
def tokenizeChars : List Char → List Char → List String
  | [], acc => if acc.isEmpty then [] else [String.mk acc.reverse]
  | ch :: cs, acc =>
    if ch.isWhitespace then
      if acc.isEmpty then tokenizeChars cs []
      else String.mk acc.reverse :: tokenizeChars cs []
    else tokenizeChars cs (ch :: acc)

/-- Tokenize an equation string on whitespace. -/
def tokenizeString (s : String) : List String :=
  tokenizeChars s.data []

/-- Numeric value of a list of decimal digit characters. -/
def digitsVal (ds : List Char) : Nat :=
  ds.foldl (fun n c => 10 * n + (c.toNat - '0'.toNat)) 0

/-- Split an optional leading sign off a numeric literal. -/
def fpSignSplit (cs : List Char) : ℚ × List Char :=
  match cs with
  | [] => (1, [])
  | ch :: r =>
    if ch = '+' then (1, r)
    else if ch = '-' then (-1, r)
    else (1, ch :: r)

/-- Modelled from the spec: `fpValueCheck` (from `base/stringUtils.cpp`, not
part of the provided sources) parses a numeric literal and fails when the
token is not numeric ("parse the numeral; fail with a structured error if not
numeric"). Accepts an optional sign, an integer part and an optional decimal
fraction. -/
def fpValueCheck (tok : String) : Option ℚ :=
  match (fpSignSplit tok.data).2.dropWhile Char.isDigit with
  | [] =>
    if ((fpSignSplit tok.data).2.takeWhile Char.isDigit).isEmpty then none
    else some ((fpSignSplit tok.data).1
      * (digitsVal ((fpSignSplit tok.data).2.takeWhile Char.isDigit) : ℚ))
  | ch :: fracPart =>
    if ch = '.' then
      if fracPart.all Char.isDigit
          ∧ ¬(((fpSignSplit tok.data).2.takeWhile Char.isDigit).isEmpty
              ∧ fracPart.isEmpty) then
        some ((fpSignSplit tok.data).1
          * ((digitsVal ((fpSignSplit tok.data).2.takeWhile Char.isDigit) : ℚ)
            + (digitsVal fracPart : ℚ) / (10 : ℚ) ^ fracPart.length))
      else none
    else none

/-- `boost::algorithm::starts_with` on strings, character by character. -/
def strStartsWith (s pre : String) : Bool :=
  pre.data.isPrefixOf s.data

/-- `boost::algorithm::ends_with` on strings, character by character. -/
def strEndsWith (s suf : String) : Bool :=
  suf.data.isSuffixOf s.data

/-- A token that completes the preceding species term: `"+"`, a falloff
bracket opener, or one of the side separators. -/
def triggerTok (t : String) : Bool :=
  t == "+" || strStartsWith t "(+" || t == "<=>" || t == "=" || t == "=>"

/-- `last_used == i - gap` in `size_t` arithmetic, where `last_used` may be
`npos`: when `last_used = npos = 2^64-1`, the comparison holds exactly when
`i - gap` wraps around to `2^64-1`, that is when `i + 1 = gap`. -/
def lastUsedEq (lastUsed : Option Nat) (i gap : Nat) : Bool :=
  match lastUsed with
  | some l => l + gap == i
  | none => i + 1 == gap

/-- Resolve the species name and stoichiometric coefficient of the term
completed at token index `i` (the body of the gap-pattern `if` chain in
`parseReactionEquation`). -/
def speciesStoich (tokens : List String) (i : Nat) (lastUsed : Option Nat) :
    Except String (String × ℚ) :=
  let sp := tokens.getD (i - 1) ""
  if (match lastUsed with
      | some l => tokens.getD l "" == "(+"
      | none => false) then
    -- Falloff third body with space, such as "(+ M)"
    .ok ("(+" ++ sp, -1)
  else if lastUsedEq lastUsed i 1 && strStartsWith sp "(+" && strEndsWith sp ")" then
    -- Falloff 3rd body written without space, such as "(+M)"
    .ok (sp, -1)
  else if lastUsedEq lastUsed i 2 then
    -- Species with no stoichiometric coefficient
    .ok (sp, 1)
  else if lastUsedEq lastUsed i 3 then
    -- Stoichiometric coefficient and species
    match fpValueCheck (tokens.getD (i - 2) "") with
    | some v => .ok (sp, v)
    | none => .error "parseReactionEquation: invalid coefficient"
  else
    .error "parseReactionEquation: error parsing reaction string"

/-- The species-validity test of the parser: with no governing mechanism the
reaction is always marked invalid; with one, a completed term marks the
reaction invalid when its species is undeclared, its coefficient is not the
falloff marker `-1`, and it is not the generic symbol `M`. -/
def termInvalid (okin : Option Kinetics) (species : String) (stoich : ℚ) : Bool :=
  match okin with
  | none => true
  | some kin => !kin.declares species && stoich != -1 && species != "M"

/-- Record a completed term on the current side: update the validity flag and
accumulate the coefficient into the side's composition. -/
def applyTerm (okin : Option Kinetics) (onReac : Bool) (R : Reaction)
    (species : String) (stoich : ℚ) : Reaction :=
  if onReac then
    { R with m_valid := if termInvalid okin species stoich then false else R.m_valid,
             reactants := compAdd R.reactants species stoich }
  else
    { R with m_valid := if termInvalid okin species stoich then false else R.m_valid,
             products := compAdd R.products species stoich }

/-- The token scan of `parseReactionEquation`, from token index `i`. The
side-switch tests on the current token run after the term-completion step, as
in the source; since the separator tokens are themselves trigger tokens, the
side-switch tests in the non-trigger branch are unreachable but are kept to
mirror the source's control flow. The loop of the source runs `i` up to the
token count; here the remaining iteration count is carried as a structural
`fuel` argument (initialised to the token count, which bounds the number of
iterations, so the fuel never runs out). -/
def parseLoop (tokens : List String) (okin : Option Kinetics) :
    Nat → Nat → Option Nat → Bool → Reaction → Except String Reaction
  | 0, _, _, _, R => .ok R
  | fuel + 1, i, lastUsed, onReac, R =>
    if i < tokens.length then
      if triggerTok (tokens.getD i "") then
        match speciesStoich tokens i lastUsed with
        | .error e => .error e
        | .ok (species, stoich) =>
          if tokens.getD i "" == "<=>" || tokens.getD i "" == "=" then
            parseLoop tokens okin fuel (i + 1) (some i) false
              { applyTerm okin onReac R species stoich with reversible := true }
          else if tokens.getD i "" == "=>" then
            parseLoop tokens okin fuel (i + 1) (some i) false
              { applyTerm okin onReac R species stoich with reversible := false }
          else
            parseLoop tokens okin fuel (i + 1) (some i) onReac
              (applyTerm okin onReac R species stoich)
      else
        if tokens.getD i "" == "<=>" || tokens.getD i "" == "=" then
          parseLoop tokens okin fuel (i + 1) lastUsed false { R with reversible := true }
        else if tokens.getD i "" == "=>" then
          parseLoop tokens okin fuel (i + 1) lastUsed false { R with reversible := false }
        else parseLoop tokens okin fuel (i + 1) lastUsed onReac R
    else .ok R

/-- `parseReactionEquation`: tokenize, append a synthetic trailing `"+"`, and
scan from token index 1, writing into the given reaction. -/
def parseReactionEquation (R : Reaction) (equation : String)
    (okin : Option Kinetics) : Except String Reaction :=
  parseLoop (tokenizeString equation ++ ["+"]) okin
    (tokenizeString equation ++ ["+"]).length 1 none true R

/-! ## Order-validity check (`Reaction::check`) -/

/-- The errors raised by the checking routines of `Reaction.cpp`. -/
inductive CheckError where
  /-- "Reaction order specified for non-reactant species" -/
  | nonreactantOrder (species : String)
  /-- "Negative reaction order specified for species" -/
  | negativeOrder (species : String)
  /-- "Reaction orders may only be given for irreversible reactions" -/
  | ordersOnReversible
  /-- "The following reaction is unbalanced"; carries every offending element
  with its reactant-side and product-side atom totals. -/
  | unbalanced (elems : List (String × ℚ × ℚ))
  /-- "Number of surface sites not balanced"; carries the reactant-site and
  product-site totals. -/
  | unbalancedSites (reacSites prodSites : ℚ)
  /-- "contains undeclared species" -/
  | undeclaredSpecies (names : List String)
  /-- "defines reaction orders for undeclared species" -/
  | undeclaredOrderSpecies (names : List String)
  /-- third-body efficiencies (or the collision partner) name undeclared
  species -/
  | undeclaredThirdBody (names : List String)
  deriving DecidableEq, Repr

/-- `Reaction::check` restricted to the order-validity checks (the trailing
`m_rate->check` call delegates to the external rate-model collaborator, which
is out of scope). Each loop-with-throw of the source is rendered as an
existence test carrying the first offending species. -/
def Reaction.check (R : Reaction) : Except CheckError Unit :=
  if !R.allow_nonreactant_orders && R.orders.any (fun o => !compHas R.reactants o.1) then
    .error (.nonreactantOrder
      (((R.orders.find? (fun o => !compHas R.reactants o.1)).map (·.1)).getD ""))
  else if !R.allow_negative_orders && R.orders.any (fun o => decide (o.2 < 0)) then
    .error (.negativeOrder
      (((R.orders.find? (fun o => decide (o.2 < 0))).map (·.1)).getD ""))
  else if R.reversible && !R.orders.isEmpty then .error .ordersOnReversible
  else .ok ()

/-! ## Balance checker (`Reaction::checkBalance`) -/

/-- The product/reactant element-total maps `balr`/`balp`: the product loop
runs first, zero-initialising `balr` for every element of every product's
phase while accumulating `balp`; the reactant loop then accumulates into
`balr`. -/
def balanceMaps (R : Reaction) (kin : Kinetics) : Composition × Composition :=
  let afterProducts :=
    R.products.foldl (fun (bal : Composition × Composition) sp =>
      let ph := kin.speciesPhase sp.1
      let k := ph.speciesIndex sp.1
      (List.range ph.elements.length).foldl (fun (bal : Composition × Composition) m =>
        let elem := ph.elements.getD m ""
        (compSet bal.1 elem 0, compAdd bal.2 elem (sp.2 * ph.nAtoms k m))) bal)
      ([], [])
  R.reactants.foldl (fun (bal : Composition × Composition) sp =>
    let ph := kin.speciesPhase sp.1
    let k := ph.speciesIndex sp.1
    (List.range ph.elements.length).foldl (fun (bal : Composition × Composition) m =>
      let elem := ph.elements.getD m ""
      (compAdd bal.1 elem (sp.2 * ph.nAtoms k m), bal.2)) bal)
    afterProducts

/-- The elements flagged as unbalanced, with their reactant and product atom
totals: an element is flagged exactly when `elemsum > 0` and
`elemdiff / elemsum > 1e-4`. -/
def flaggedElems (balr balp : Composition) : List (String × ℚ × ℚ) :=
  balr.filterMap (fun el =>
    if el.2 + compGetD balp el.1 > 0 ∧
        |compGetD balp el.1 - el.2| / (el.2 + compGetD balp el.1) > 1 / 10000 then
      some (el.1, el.2, compGetD balp el.1)
    else none)

/-- The reactant-side surface-site total `reac_sites`. -/
def reacSites (R : Reaction) (kin : Kinetics) : ℚ :=
  R.reactants.foldl (fun acc rc =>
    let k := kin.surfacePhase.speciesIndex rc.1
    if k < kin.surfacePhase.species.length then acc + rc.2 * kin.surfacePhase.siteSize k
    else acc) 0

/-- The product-side surface-site total `prod_sites`. -/
def prodSites (R : Reaction) (kin : Kinetics) : ℚ :=
  R.products.foldl (fun acc rc =>
    let k := kin.surfacePhase.speciesIndex rc.1
    if k < kin.surfacePhase.species.length then acc + rc.2 * kin.surfacePhase.siteSize k
    else acc) 0

/-- `Reaction::checkBalance`: elemental balance with relative tolerance
`1e-4` (aggregated error over all offending elements), then, for non-bulk
(surface) reaction phases, surface-site balance with relative tolerance
`1e-5`. -/
def Reaction.checkBalance (R : Reaction) (kin : Kinetics) : Except CheckError Unit :=
  if flaggedElems (balanceMaps R kin).1 (balanceMaps R kin).2 ≠ [] then
    .error (.unbalanced (flaggedElems (balanceMaps R kin).1 (balanceMaps R kin).2))
  else if kin.reactionPhase.nDim = 3 then .ok ()
  else if |reacSites R kin - prodSites R kin|
      > 1 / 100000 * (reacSites R kin + prodSites R kin) then
    .error (.unbalancedSites (reacSites R kin) (prodSites R kin))
  else .ok ()

/-! ## Species checker (`Reaction::checkSpecies`) -/

/-- `updateUndeclared`: append to `undeclared` every species of `comp` that
the mechanism does not declare. -/
def updateUndeclared (undeclared : List String) (comp : Composition)
    (kin : Kinetics) : List String :=
  comp.foldl (fun u sp => if kin.declares sp.1 then u else u ++ [sp.1]) undeclared

/-- `Reaction::undeclaredThirdBodies`: undeclared species among the third
body's efficiencies, paired with its `specified_collision_partner` flag. -/
def Reaction.undeclaredThirdBodies (R : Reaction) (kin : Kinetics) :
    List String × Bool :=
  match R.third_body with
  | some tb => (updateUndeclared [] tb.efficiencies kin, tb.specified_collision_partner)
  | none => ([], false)

/-- `Reaction::checkSpecies`: undeclared species in reactants/products, then
in orders, then in third-body efficiencies (subject to the mechanism's skip
policies), and finally the balance check (whose error propagates, as the C++
exception does). -/
def Reaction.checkSpecies (R : Reaction) (kin : Kinetics) : Except CheckError Bool :=
  if updateUndeclared (updateUndeclared [] R.reactants kin) R.products kin ≠ [] then
    if kin.skipUndeclaredSpecies then .ok false
    else .error (.undeclaredSpecies
      (updateUndeclared (updateUndeclared [] R.reactants kin) R.products kin))
  else if updateUndeclared [] R.orders kin ≠ [] then
    if kin.skipUndeclaredSpecies then .ok false
    else .error (.undeclaredOrderSpecies (updateUndeclared [] R.orders kin))
  else if (R.undeclaredThirdBodies kin).1 ≠ [] ∧ ¬kin.skipUndeclaredThirdBodies then
    .error (.undeclaredThirdBody (R.undeclaredThirdBodies kin).1)
  else if (R.undeclaredThirdBodies kin).1 ≠ [] ∧ kin.skipUndeclaredSpecies
          ∧ (R.undeclaredThirdBodies kin).2 then
    .ok false
  else
    (R.checkBalance kin).map (fun _ => true)

/-! ## Three-body collision-partner resolver -/

/-- The scan of `ThreeBodyReaction::detectEfficiencies`: record efficiency `1`
for every reactant species that also appears among the products. -/
def scanEfficiencies (reactants products : Composition) (eff : Composition) :
    Composition :=
  reactants.foldl (fun eff rc =>
    if compHas products rc.1 then compSet eff rc.1 1 else eff) eff

/-- `ThreeBodyReaction::detectEfficiencies`: detect an explicitly specified
collision partner. Returns `false` when no reactant recurs among the
products; errors when more than one does; otherwise marks the single match as
the collision partner (efficiency `1`, default efficiency `0`) and removes one
stoichiometric unit of it from each side — erasing the species from a side
exactly when the truncation of its coefficient there equals `1`. The source
dereferences `map::find` results unconditionally; the unreachable
absent-key case is modelled as an error. -/
def ThreeBodyReaction.detectEfficiencies (R : Reaction) (tb : ThirdBody) :
    Except String (Bool × Reaction × ThirdBody) :=
  if (scanEfficiencies R.reactants R.products tb.efficiencies).length = 0 then
    .ok (false, R,
      { tb with efficiencies := scanEfficiencies R.reactants R.products tb.efficiencies })
  else if (scanEfficiencies R.reactants R.products tb.efficiencies).length > 1 then
    .error "Found more than one explicitly specified collision partner"
  else
    match (scanEfficiencies R.reactants R.products tb.efficiencies).head? with
    | none => .error "unreachable: empty singleton"
    | some sp =>
      match compFind? R.reactants sp.1 with
      | none => .error "unreachable: collision partner missing from reactants"
      | some cr =>
        match compFind? R.products sp.1 with
        | none => .error "unreachable: collision partner missing from products"
        | some cp =>
          .ok (true,
            { R with
                reactants := if ratTrunc cr ≠ 1 then compSet R.reactants sp.1 (cr - 1)
                             else compErase R.reactants sp.1,
                products := if ratTrunc cp ≠ 1 then compSet R.products sp.1 (cp - 1)
                            else compErase R.products sp.1 },
            { tb with
                efficiencies := scanEfficiencies R.reactants R.products tb.efficiencies,
                default_efficiency := 0, specified_collision_partner := true })

/-- `ThreeBodyReaction::setEquation`: generic parse, then either strip the
generic `M` present exactly once on each side, or fall back to
`detectEfficiencies` (raising "does not contain third body 'M'" when that
detects nothing). -/
def ThreeBodyReaction.setEquation (R : Reaction) (tb : ThirdBody)
    (equation : String) (okin : Option Kinetics) :
    Except String (Reaction × ThirdBody) :=
  match parseReactionEquation R equation okin with
  | .error e => .error e
  | .ok R1 =>
    if !(compHas R1.reactants "M") || !(compHas R1.products "M") then
      match ThreeBodyReaction.detectEfficiencies R1 tb with
      | .error e => .error e
      | .ok (false, _, _) =>
        .error "Reaction equation does not contain third body M"
      | .ok (true, R2, tb2) => .ok (R2, tb2)
    else
      .ok ({ R1 with reactants := compErase R1.reactants "M",
                     products := compErase R1.products "M" }, tb)

/-! ## Falloff collision-partner resolver -/

/-- The bracket-resolution tail of `FalloffReaction::setEquation`, run after
the generic parse: find the first reactant with coefficient exactly `-1`
whose name begins with `"(+"`, require the same bracket term among the
products, strip it from both sides, and record the interior name (generic `M`
versus an explicit collision partner). -/
def FalloffReaction.resolveThirdBody (R : Reaction) (tb : ThirdBody) :
    Except String (Reaction × ThirdBody) :=
  match R.reactants.find? (fun rc => rc.2 == -1 && strStartsWith rc.1 "(+") with
  | none =>
    .error "Reactants do not contain a pressure-dependent third body"
  | some rc =>
    -- the interior of the bracket term `rc.1` is `substr(2, size() - 3)`
    if !(compHas R.products rc.1) then
      .error "Unable to match third body in reactants and products"
    else if ((rc.1.drop 2).dropRight 1) = "M" then
      .ok ({ R with reactants := compErase R.reactants rc.1,
                    products := compErase R.products rc.1 },
           { tb with specified_collision_partner := false })
    else
      .ok ({ R with reactants := compErase R.reactants rc.1,
                    products := compErase R.products rc.1 },
           { tb with default_efficiency := 0,
                     efficiencies :=
                       if compHas tb.efficiencies ((rc.1.drop 2).dropRight 1)
                       then tb.efficiencies
                       else tb.efficiencies ++ [((rc.1.drop 2).dropRight 1, 1)],
                     specified_collision_partner := true })

/-- `FalloffReaction::setEquation`: generic parse followed by bracket
resolution. -/
def FalloffReaction.setEquation (R : Reaction) (tb : ThirdBody)
    (equation : String) (okin : Option Kinetics) :
    Except String (Reaction × ThirdBody) :=
  match parseReactionEquation R equation okin with
  | .error e => .error e
  | .ok R1 => FalloffReaction.resolveThirdBody R1 tb

/-! ## Parameter setting (the slice relevant to the third-body invariant) -/

/-- The input document node, reduced to the keys `Reaction::setParameters`
and `ThirdBody::setEfficiencies` consume. -/
structure RxnNode where
  equation : String
  orders : Composition := []
  duplicate : Bool := false
  negativeOrders : Bool := false
  nonreactantOrders : Bool := false
  defaultEfficiency : Option ℚ := none
  efficiencies : Option Composition := none

/-- `ThirdBody::setEfficiencies`: read `default-efficiency` (default `1.0`)
and, when present, the `efficiencies` map. -/
def ThirdBody.setEfficiencies (tb : ThirdBody) (node : RxnNode) : ThirdBody :=
  { tb with default_efficiency := node.defaultEfficiency.getD 1,
            efficiencies := node.efficiencies.getD tb.efficiencies }

/-- The orders/flags tail of `Reaction::setParameters` (after the virtual
`setEquation` call): record orders (marking the reaction invalid for
undeclared order species) and copy the flags. -/
def Reaction.setParametersTail (R : Reaction) (node : RxnNode) (kin : Kinetics) :
    Reaction :=
  let R1 := node.orders.foldl (fun R o =>
    { R with orders := compSet R.orders o.1 o.2,
             m_valid := if !kin.declares o.1 then false else R.m_valid }) R
  { R1 with duplicate := node.duplicate,
            allow_negative_orders := node.negativeOrders,
            allow_nonreactant_orders := node.nonreactantOrders }

/-- `ThreeBodyReaction::setParameters`: base-class parameter setting (with the
virtual `setEquation` dispatching to the three-body resolver), then
`setEfficiencies` unless an explicit collision partner was detected. -/
def ThreeBodyReaction.setParameters (R : Reaction) (tb : ThirdBody)
    (node : RxnNode) (kin : Kinetics) : Except String (Reaction × ThirdBody) :=
  match ThreeBodyReaction.setEquation R tb node.equation (some kin) with
  | .error e => .error e
  | .ok (R1, tb1) =>
    let R2 := R1.setParametersTail node kin
    if !tb1.specified_collision_partner then
      .ok (R2, tb1.setEfficiencies node)
    else
      .ok (R2, tb1)

/-- `FalloffReaction::setParameters`: base-class parameter setting (with the
virtual `setEquation` dispatching to the falloff resolver), then
`setEfficiencies` unless an explicit collision partner was detected. -/
def FalloffReaction.setParameters (R : Reaction) (tb : ThirdBody)
    (node : RxnNode) (kin : Kinetics) : Except String (Reaction × ThirdBody) :=
  match FalloffReaction.setEquation R tb node.equation (some kin) with
  | .error e => .error e
  | .ok (R1, tb1) =>
    let R2 := R1.setParametersTail node kin
    if !tb1.specified_collision_partner then
      .ok (R2, tb1.setEfficiencies node)
    else
      .ok (R2, tb1)

/-! ## `isThreeBody` classification heuristic -/

/-- Candidate collision partners of `isThreeBody`: reactant entries whose
species also appears among the products with integer (`trunc`-fixed)
coefficients on both sides. -/
def threeBodyCandidates (R : Reaction) : List (String × ℚ) :=
  R.reactants.filter (fun rc =>
    match compFind? R.products rc.1 with
    | some pv => decide ((ratTrunc rc.2 : ℚ) = rc.2 ∧ (ratTrunc pv : ℚ) = pv)
    | none => false)

/-- Whether every coefficient of a composition is an integer. -/
def allIntCoeffs (c : Composition) : Bool :=
  c.all (fun p => (ratTrunc p.2 : ℚ) == p.2)

/-- Total integer stoichiometric count of a side (the `size_t` accumulation
of the source, modelled over `ℤ`). -/
def intCoeffSum (c : Composition) : ℤ :=
  (c.map (fun p => ratTrunc p.2)).sum

/-- `isThreeBody`: detect an implicit three-body reaction — exactly one
candidate collision partner, all-integer stoichiometry on both sides, and a
total count of three on the reactant or the product side. -/
def isThreeBody (R : Reaction) : Bool :=
  if (threeBodyCandidates R).length ≠ 1 then false
  else if !allIntCoeffs R.reactants then false
  else if !allIntCoeffs R.products then false
  else intCoeffSum R.reactants == 3 || intCoeffSum R.products == 3

/-! ## Rate-coefficient units (`Reaction::calculateRateCoeffUnits`) -/

/-- Modelled from the spec: `UnitStack` (from `base/Units.h`, not part of the
provided sources) is a "layered unit-exponent stack", a sequence of
(unit, exponent) stages. -/
abbrev UnitStack := List (Units × ℚ)

/-- Modelled from the spec: the first (standard-unit) stage of the stack. -/
def stackFirstUnit (s : UnitStack) : Units :=
  (s.headD (unitsOne, 0)).1

/-- Modelled from the spec: `UnitStack::join` appends a stage carrying the
stack's standard unit with the given exponent. -/
def stackJoin (s : UnitStack) (e : ℚ) : UnitStack :=
  s ++ [(stackFirstUnit s, e)]

/-- Modelled from the spec: `UnitStack::update` appends a (unit, exponent)
stage. -/
def stackUpdate (s : UnitStack) (u : Units) (e : ℚ) : UnitStack :=
  s ++ [(u, e)]

/-- `Reaction::calculateRateCoeffUnits`: empty stack for invalid reactions;
otherwise standard-concentration per second, divided by each explicit order's
concentration unit raised to the order, divided by each remaining reactant's
concentration unit raised to its stoichiometric coefficient (skipping the
generic `M` and falloff-bracket pseudo-species), with one trailing inverse
concentration stage when a third body is present. -/
def Reaction.calculateRateCoeffUnits (R : Reaction) (kin : Kinetics) : UnitStack :=
  if !R.m_valid then []
  else
    let s0 : UnitStack := [(kin.reactionPhase.standardConcentrationUnits, 0)]
    let s1 := stackJoin s0 1
    let s2 := stackUpdate s1 perSecond 1
    let s3 := R.orders.foldl (fun s o =>
      stackUpdate s (kin.speciesPhase o.1).standardConcentrationUnits (-o.2)) s2
    let s4 := R.reactants.foldl (fun s rc =>
      if rc.1 == "M" || strStartsWith rc.1 "(+" then s
      else if compHas R.orders rc.1 then s
      else stackUpdate s (kin.speciesPhase rc.1).standardConcentrationUnits (-rc.2)) s3
    if R.third_body.isSome then stackJoin s4 (-1) else s4

/-!
# Verified properties
-/

/-! ## C7: the order-validity check -/

/-- C7: `Reaction::check` fails with a fatal error exactly when an order is
given for a species not among the reactants while `allow_nonreactant_orders`
is false, or a negative order is given while `allow_negative_orders` is
false, or any order at all is given while the reaction is reversible;
otherwise the check passes. -/
theorem reaction_check_fails_iff (R : Reaction) :
    (∃ e, R.check = .error e) ↔
      (R.allow_nonreactant_orders = false ∧
        ∃ o ∈ R.orders, compHas R.reactants o.1 = false) ∨
      (R.allow_negative_orders = false ∧ ∃ o ∈ R.orders, o.2 < 0) ∨
      (R.reversible = true ∧ R.orders ≠ []) := by
  unfold Reaction.check
  split_ifs with h1 h2 h3
  · rw [Bool.and_eq_true, Bool.not_eq_true'] at h1
    refine iff_of_true ⟨_, rfl⟩ (Or.inl ⟨h1.1, ?_⟩)
    simpa [List.any_eq_true, Bool.not_eq_true'] using h1.2
  · rw [Bool.and_eq_true, Bool.not_eq_true'] at h2
    refine iff_of_true ⟨_, rfl⟩ (Or.inr (Or.inl ⟨h2.1, ?_⟩))
    simpa [List.any_eq_true] using h2.2
  · rw [Bool.and_eq_true] at h3
    refine iff_of_true ⟨_, rfl⟩ (Or.inr (Or.inr ⟨h3.1, ?_⟩))
    simpa [Bool.not_eq_true', List.isEmpty_iff] using h3.2
  · refine iff_of_false (by simp) ?_
    rintro (⟨ha, o, ho, hc⟩ | ⟨ha, o, ho, hc⟩ | ⟨ha, hne⟩)
    · refine h1 ?_
      rw [Bool.and_eq_true, Bool.not_eq_true']
      exact ⟨ha, List.any_eq_true.mpr ⟨o, ho, by simp [hc]⟩⟩
    · refine h2 ?_
      rw [Bool.and_eq_true, Bool.not_eq_true']
      exact ⟨ha, List.any_eq_true.mpr ⟨o, ho, decide_eq_true hc⟩⟩
    · refine h3 ?_
      rw [Bool.and_eq_true]
      exact ⟨ha, by simp [List.isEmpty_iff, hne]⟩

/-! ## C10: parsing without a governing mechanism -/

/-- The validity flag of a recorded term. -/
theorem applyTerm_m_valid (okin : Option Kinetics) (onReac : Bool) (R : Reaction)
    (species : String) (stoich : ℚ) :
    (applyTerm okin onReac R species stoich).m_valid =
      if termInvalid okin species stoich then false else R.m_valid := by
  unfold applyTerm
  split <;> rfl

/-- The reactant side of a recorded term. -/
theorem applyTerm_reactants (okin : Option Kinetics) (onReac : Bool) (R : Reaction)
    (species : String) (stoich : ℚ) :
    (applyTerm okin onReac R species stoich).reactants =
      if onReac then compAdd R.reactants species stoich else R.reactants := by
  unfold applyTerm
  split <;> simp_all

/-- The product side of a recorded term. -/
theorem applyTerm_products (okin : Option Kinetics) (onReac : Bool) (R : Reaction)
    (species : String) (stoich : ℚ) :
    (applyTerm okin onReac R species stoich).products =
      if onReac then R.products else compAdd R.products species stoich := by
  unfold applyTerm
  split <;> simp_all

/-- Recording a term does not touch the reversibility flag. -/
theorem applyTerm_reversible (okin : Option Kinetics) (onReac : Bool) (R : Reaction)
    (species : String) (stoich : ℚ) :
    (applyTerm okin onReac R species stoich).reversible = R.reversible := by
  unfold applyTerm
  split <;> rfl

/-- With no governing mechanism, every completed term marks the reaction
invalid, so the parse preserves "valid implies both sides still empty". -/
theorem parseLoop_none_inv (tokens : List String) :
    ∀ fuel i lu onReac R R',
      parseLoop tokens none fuel i lu onReac R = .ok R' →
      (R.m_valid = true → R.reactants = [] ∧ R.products = []) →
      (R'.m_valid = true → R'.reactants = [] ∧ R'.products = []) := by
  intro fuel
  induction fuel with
  | zero =>
    intro i lu onReac R R' hok hInv
    cases hok
    exact hInv
  | succ n ih =>
    intro i lu onReac R R' hok hInv
    rw [parseLoop] at hok
    by_cases hi : i < tokens.length
    · rw [if_pos hi] at hok
      have hterm : ∀ sp st b,
          ¬(applyTerm none onReac R sp st).m_valid = true ∧
          ¬({ applyTerm none onReac R sp st with reversible := b }).m_valid = true := by
        intro sp st b
        constructor <;>
          simp [applyTerm_m_valid, termInvalid]
      split at hok
      · -- trigger token: case on speciesStoich
        split at hok
        · exact absurd hok (by simp)
        · rename_i sp st hss
          split at hok
          · exact ih _ _ _ _ _ hok (fun h => absurd h (hterm sp st true).2)
          · split at hok
            · exact ih _ _ _ _ _ hok (fun h => absurd h (hterm sp st false).2)
            · exact ih _ _ _ _ _ hok (fun h => absurd h (hterm sp st false).1)
      · -- non-trigger token
        split at hok
        · exact ih _ _ _ _ _ hok (fun h => hInv h)
        · split at hok
          · exact ih _ _ _ _ _ hok (fun h => hInv h)
          · exact ih _ _ _ _ _ hok hInv
    · rw [if_neg hi] at hok
      cases hok
      exact hInv

/-- C10: for every equation containing at least one species term,
`parseReactionEquation` invoked without a governing mechanism marks the
reaction invalid on every completed term, so any non-trivial equation parsed
without a mechanism always yields an invalid reaction. -/
theorem parse_without_kinetics_invalid (equation : String) (R' : Reaction)
    (hok : parseReactionEquation {} equation none = .ok R')
    (hne : R'.reactants ≠ [] ∨ R'.products ≠ []) : R'.m_valid = false := by
  by_contra hv
  rw [Bool.not_eq_false] at hv
  have := parseLoop_none_inv (tokenizeString equation ++ ["+"])
    (tokenizeString equation ++ ["+"]).length 1 none true {} R' hok
    (by intro _; exact ⟨rfl, rfl⟩) hv
  rcases hne with h | h
  · exact h this.1
  · exact h this.2

/-- Witness for C10: parsing `"A = B"` without a mechanism yields an invalid
reaction. -/
theorem parse_without_kinetics_invalid_witness :
    Reaction.m_valid
      { reactants := [("A", 1)], products := [("B", 1)], reversible := true,
        duplicate := false, orders := [], allow_nonreactant_orders := false,
        allow_negative_orders := false, m_valid := false, third_body := none }
      = false :=
  parse_without_kinetics_invalid "A = B" _ rfl (Or.inl (by simp))

/-! ## C1: `checkSpecies` and undeclared references -/

/-- `updateUndeclared` appends exactly the undeclared species of the scanned
composition. -/
theorem updateUndeclared_eq (kin : Kinetics) :
    ∀ (c : Composition) (u : List String),
      updateUndeclared u c kin =
        u ++ (c.filter (fun sp => !kin.declares sp.1)).map Prod.fst := by
  intro c
  induction c with
  | nil => intro u; simp [updateUndeclared]
  | cons sp c ih =>
    intro u
    have step : updateUndeclared u (sp :: c) kin
        = updateUndeclared (if kin.declares sp.1 then u else u ++ [sp.1]) c kin := rfl
    rw [step, ih]
    by_cases h : kin.declares sp.1 = true
    · simp [h, List.filter_cons]
    · have h' : kin.declares sp.1 = false := by simpa using h
      simp [h', List.filter_cons]

/-- `updateUndeclared` starting from an empty accumulator is empty exactly
when every scanned species is declared. -/
theorem updateUndeclared_nil_iff (kin : Kinetics) (c : Composition) :
    updateUndeclared [] c kin = [] ↔ ∀ sp ∈ c, kin.declares sp.1 = true := by
  rw [updateUndeclared_eq]
  simp [List.filter_eq_nil_iff]

/-- A mechanism declaring only `A`, permitting the skipping of undeclared
third bodies but not of undeclared species. -/
def kinC1 : Kinetics where
  species := ["A"]
  skipUndeclaredSpecies := false
  skipUndeclaredThirdBodies := true
  speciesPhase := fun _ =>
    { elements := ["H"], species := ["A"], nAtoms := fun _ _ => 1,
      siteSize := fun _ => 1, nDim := 3, standardConcentrationUnits := unitsOne }
  reactionPhase :=
    { elements := ["H"], species := ["A"], nAtoms := fun _ _ => 1,
      siteSize := fun _ => 1, nDim := 3, standardConcentrationUnits := unitsOne }
  surfacePhase :=
    { elements := ["H"], species := ["A"], nAtoms := fun _ _ => 1,
      siteSize := fun _ => 1, nDim := 3, standardConcentrationUnits := unitsOne }

/-- A third body whose efficiency map names the undeclared species `Z`. -/
def tbC1 : ThirdBody := { efficiencies := [("Z", 1/2)] }

/-- A balanced reaction over declared species carrying `tbC1`. -/
def RC1 : Reaction :=
  { reactants := [("A", 1)], products := [("A", 1)], third_body := some tbC1 }

/-- Concrete evaluation: `checkSpecies` accepts `RC1` under `kinC1`. -/
theorem RC1_checkSpecies_eval : RC1.checkSpecies kinC1 = .ok true := by
  norm_num [Reaction.checkSpecies, RC1, kinC1, tbC1, updateUndeclared,
    Reaction.undeclaredThirdBodies, Reaction.checkBalance, balanceMaps,
    flaggedElems, compSet, compAdd, compGetD, compFind?, Kinetics.declares,
    Except.map, reacSites, prodSites, ThermoPhase.speciesIndex,
    List.range_succ, List.foldl, List.filterMap, List.find?, List.getD]

/-- Counterexample to C1 as stated: `checkSpecies` returns `true` although the
third body's efficiency map references the species `Z`, which is absent from
the mechanism's species list (the mechanism's `skipUndeclaredThirdBodies`
policy admits it without excluding the reaction). -/
theorem checkSpecies_skipThirdBodies_counterexample :
    RC1.checkSpecies kinC1 = .ok true ∧
    RC1.third_body = some tbC1 ∧
    compHas tbC1.efficiencies "Z" = true ∧
    kinC1.declares "Z" = false :=
  ⟨RC1_checkSpecies_eval, rfl, rfl, rfl⟩

/-- C1 (amended): if `checkSpecies` returns `true` then every species in the
reactants, the products and the reaction orders is declared by the mechanism
and the balance check passed without error; species named only in third-body
efficiencies may remain undeclared, which occurs exactly under the
mechanism's `skipUndeclaredThirdBodies` policy when not both
`skipUndeclaredSpecies` and `specified_collision_partner` hold. -/
theorem checkSpecies_ok_true (R : Reaction) (kin : Kinetics)
    (h : R.checkSpecies kin = .ok true) :
    (∀ sp ∈ R.reactants, kin.declares sp.1 = true) ∧
    (∀ sp ∈ R.products, kin.declares sp.1 = true) ∧
    (∀ o ∈ R.orders, kin.declares o.1 = true) ∧
    R.checkBalance kin = .ok () ∧
    ((R.undeclaredThirdBodies kin).1 ≠ [] →
      kin.skipUndeclaredThirdBodies = true ∧
      ¬(kin.skipUndeclaredSpecies = true ∧ (R.undeclaredThirdBodies kin).2 = true)) := by
  unfold Reaction.checkSpecies at h
  by_cases hrp :
      updateUndeclared (updateUndeclared [] R.reactants kin) R.products kin ≠ []
  · rw [if_pos hrp] at h
    split at h <;> simp at h
  · rw [if_neg hrp] at h
    rw [not_not, updateUndeclared_eq, List.append_eq_nil] at hrp
    obtain ⟨hr, hp⟩ := hrp
    rw [updateUndeclared_eq, List.nil_append] at hr
    have hrdecl : ∀ sp ∈ R.reactants, kin.declares sp.1 = true := by
      have hf := List.filter_eq_nil_iff.mp (List.map_eq_nil_iff.mp hr)
      intro sp hsp
      simpa using hf sp hsp
    have hpdecl : ∀ sp ∈ R.products, kin.declares sp.1 = true := by
      have hf := List.filter_eq_nil_iff.mp (List.map_eq_nil_iff.mp hp)
      intro sp hsp
      simpa using hf sp hsp
    by_cases ho : updateUndeclared [] R.orders kin ≠ []
    · rw [if_pos ho] at h
      split at h <;> simp at h
    · rw [if_neg ho] at h
      rw [not_not, updateUndeclared_nil_iff] at ho
      by_cases htb :
          (R.undeclaredThirdBodies kin).1 ≠ [] ∧ ¬kin.skipUndeclaredThirdBodies
      · rw [if_pos htb] at h
        simp at h
      · rw [if_neg htb] at h
        by_cases hskip :
            (R.undeclaredThirdBodies kin).1 ≠ [] ∧ kin.skipUndeclaredSpecies
              ∧ (R.undeclaredThirdBodies kin).2
        · rw [if_pos hskip] at h
          simp at h
        · rw [if_neg hskip] at h
          refine ⟨hrdecl, hpdecl, ho, ?_, ?_⟩
          · cases hb : R.checkBalance kin with
            | error e => rw [hb] at h; simp [Except.map] at h
            | ok u => cases u; rfl
          · intro hne
            rw [not_and] at htb
            constructor
            · by_contra hf
              exact (htb hne) (by simpa using hf)
            · intro hand
              exact hskip ⟨hne, by simpa using hand.1, by simpa using hand.2⟩

/-- Witness for C1: the amended guarantee evaluated at `RC1`/`kinC1`. -/
theorem checkSpecies_ok_true_witness :
    (∀ sp ∈ RC1.reactants, kinC1.declares sp.1 = true) ∧
    (∀ sp ∈ RC1.products, kinC1.declares sp.1 = true) ∧
    (∀ o ∈ RC1.orders, kinC1.declares o.1 = true) ∧
    RC1.checkBalance kinC1 = .ok () ∧
    ((RC1.undeclaredThirdBodies kinC1).1 ≠ [] →
      kinC1.skipUndeclaredThirdBodies = true ∧
      ¬(kinC1.skipUndeclaredSpecies = true ∧
        (RC1.undeclaredThirdBodies kinC1).2 = true)) :=
  checkSpecies_ok_true RC1 kinC1 RC1_checkSpecies_eval

/-! ## C2: `detectEfficiencies` -/

/-- The efficiency scan only visits the reactants recurring among the
products. -/
theorem scanEfficiencies_filter (reactants products : Composition) :
    ∀ e, scanEfficiencies reactants products e =
      (reactants.filter (fun rc => compHas products rc.1)).foldl
        (fun eff rc => compSet eff rc.1 1) e := by
  induction reactants with
  | nil => intro e; rfl
  | cons rc rest ih =>
    intro e
    have step : scanEfficiencies (rc :: rest) products e
        = scanEfficiencies rest products
            (if compHas products rc.1 then compSet e rc.1 1 else e) := rfl
    rw [step]
    by_cases h : compHas products rc.1 = true
    · simp [h, List.filter_cons, ih]
    · simp [h, List.filter_cons, ih]

/-- C2 (amended): for a three-body reaction whose reactants contain exactly
one species that also appears among the products (and a fresh efficiency
map), `detectEfficiencies` reports success, marks that species as the
collision partner with efficiency `1` and default efficiency `0`, and removes
one stoichiometric unit of it from each side — erasing the species from a
side exactly when the truncation (integer part toward zero) of its
coefficient there equals `1` (so any coefficient in `[1, 2)` removes it),
and otherwise decrementing the coefficient by `1`. -/
theorem detectEfficiencies_single_partner (R : Reaction) (tb : ThirdBody)
    (s : String) (cr cp : ℚ)
    (hone : R.reactants.filter (fun rc => compHas R.products rc.1) = [(s, cr)])
    (hcr : compFind? R.reactants s = some cr)
    (hcp : compFind? R.products s = some cp)
    (heff : tb.efficiencies = []) :
    ThreeBodyReaction.detectEfficiencies R tb = .ok (true,
      { R with
          reactants := if ratTrunc cr = 1 then compErase R.reactants s
                       else compSet R.reactants s (cr - 1),
          products := if ratTrunc cp = 1 then compErase R.products s
                      else compSet R.products s (cp - 1) },
      { tb with efficiencies := [(s, 1)], default_efficiency := 0,
                specified_collision_partner := true }) := by
  have hscan : scanEfficiencies R.reactants R.products tb.efficiencies = [(s, 1)] := by
    rw [heff, scanEfficiencies_filter, hone]
    rfl
  unfold ThreeBodyReaction.detectEfficiencies
  rw [hscan]
  simp only [List.length_cons, List.length_nil, List.head?_cons]
  rw [if_neg (by omega), if_neg (by omega), hcr, hcp]
  by_cases h1 : ratTrunc cr = 1 <;> by_cases h2 : ratTrunc cp = 1 <;>
    simp [h1, h2]

/-- The explicit-partner input of the spec's example:
`H + O2 + AR <=> HO2 + AR`, already parsed. -/
def RW2 : Reaction :=
  { reactants := [("H", 1), ("O2", 1), ("AR", 1)],
    products := [("HO2", 1), ("AR", 1)] }

/-- Witness for C2: at `RW2` the partner `AR` (coefficient exactly `1` on
both sides) is detected and removed from both sides. -/
theorem detectEfficiencies_single_partner_witness :
    ThreeBodyReaction.detectEfficiencies RW2 {} = .ok (true,
      { RW2 with reactants := [("H", 1), ("O2", 1)], products := [("HO2", 1)] },
      { efficiencies := [("AR", 1)], default_efficiency := 0,
        specified_collision_partner := true }) := by
  have h := detectEfficiencies_single_partner RW2 {} "AR" 1 1 rfl rfl rfl rfl
  have ht : ratTrunc 1 = 1 := by
    norm_num [ratTrunc]
  rw [if_pos ht, if_pos ht] at h
  simpa [RW2, compErase, List.filter] using h

/-- A reaction with a single recurring species `A` whose reactant coefficient
is `3/2`. -/
def RC2 : Reaction :=
  { reactants := [("A", 3/2), ("B", 1)], products := [("A", 1/2), ("C", 1)] }

/-- Concrete evaluation: detecting the partner of `RC2` from a fresh third
body erases `A` from the reactant side. -/
theorem RC2_detect_eval :
    ThreeBodyReaction.detectEfficiencies RC2 {} = .ok (true,
      { RC2 with reactants := [("B", 1)], products := [("A", -(1/2)), ("C", 1)] },
      { efficiencies := [("A", 1)], default_efficiency := 0,
        specified_collision_partner := true }) := by
  have hscan : scanEfficiencies RC2.reactants RC2.products
      ({} : ThirdBody).efficiencies = [("A", 1)] := by
    simp [scanEfficiencies, RC2, compHas, compFind?, compSet, List.find?,
      List.foldl]
  have ht1 : ratTrunc (3/2) = 1 := by
    norm_num [ratTrunc, Int.floor_eq_iff]
  have ht2 : ratTrunc ((2 : ℚ)⁻¹) ≠ 1 := by
    norm_num [ratTrunc, Int.floor_eq_iff]
  have hfr : compFind? RC2.reactants "A" = some (3/2) := rfl
  have hfp : compFind? RC2.products "A" = some (1/2) := rfl
  unfold ThreeBodyReaction.detectEfficiencies
  rw [hscan]
  simp only [List.length_cons, List.length_nil, List.head?_cons]
  rw [if_neg (by omega), if_neg (by omega), hfr, hfp]
  have hprod : compSet RC2.products "A" ((2 : ℚ)⁻¹ - 1)
      = [("A", -((2 : ℚ)⁻¹)), ("C", 1)] := by
    norm_num [RC2, compSet]
  have hreac : compErase RC2.reactants "A" = [("B", 1)] := by
    simp [RC2, compErase, List.filter, bne]
  simp [ht1, ht2, hprod, hreac]

/-- Counterexample to C2 as stated: the recurring species `A` has reactant
coefficient `3/2 ≠ 1`, yet `detectEfficiencies` removes it entirely from the
reactant side (the source erases on `trunc(coeff) == 1`, not on
`coeff == 1`). -/
theorem detectEfficiencies_trunc_counterexample :
    compFind? RC2.reactants "A" = some (3/2) ∧ ((3:ℚ)/2) ≠ 1 ∧
    ThreeBodyReaction.detectEfficiencies RC2 {} = .ok (true,
      { RC2 with reactants := [("B", 1)], products := [("A", -(1/2)), ("C", 1)] },
      { efficiencies := [("A", 1)], default_efficiency := 0,
        specified_collision_partner := true }) :=
  ⟨rfl, by norm_num, RC2_detect_eval⟩

/-! ## C3: the `isThreeBody` heuristic -/

/-- Truncation fixes the integer casts. -/
theorem ratTrunc_intCast (n : ℤ) : ratTrunc (n : ℚ) = n := by
  unfold ratTrunc
  split <;> simp

/-- Truncation of `1`. -/
theorem ratTrunc_one : ratTrunc (1 : ℚ) = 1 := by
  rw [show (1 : ℚ) = ((1 : ℤ) : ℚ) by norm_num, ratTrunc_intCast]

/-- Truncation of `2`. -/
theorem ratTrunc_two : ratTrunc (2 : ℚ) = 2 := by
  rw [show (2 : ℚ) = ((2 : ℤ) : ℚ) by norm_num, ratTrunc_intCast]

/-- A coefficient is fixed by truncation exactly when it is an integer. -/
theorem ratTrunc_cast_iff (q : ℚ) : ((ratTrunc q : ℚ) = q) ↔ q.den = 1 := by
  constructor
  · intro h
    rw [← h]
    exact Rat.den_intCast _
  · intro h
    obtain ⟨n, rfl⟩ : ∃ n : ℤ, q = (n : ℚ) :=
      ⟨q.num, ((Rat.den_eq_one_iff q).mp h).symm⟩
    rw [ratTrunc_intCast]

/-- All coefficients of a composition are integers exactly when all
denominators are `1`. -/
theorem allIntCoeffs_iff (c : Composition) :
    allIntCoeffs c = true ↔ ∀ p ∈ c, p.2.den = 1 := by
  unfold allIntCoeffs
  rw [List.all_eq_true]
  constructor
  · intro h p hp
    have := h p hp
    rwa [beq_iff_eq, ratTrunc_cast_iff] at this
  · intro h p hp
    rw [beq_iff_eq, ratTrunc_cast_iff]
    exact h p hp

/-- On all-integer compositions the truncated count is the rational
coefficient sum. -/
theorem intCoeffSum_cast (c : Composition) (h : allIntCoeffs c = true) :
    ((intCoeffSum c : ℤ) : ℚ) = (c.map (fun p => p.2)).sum := by
  induction c with
  | nil => simp [intCoeffSum]
  | cons p rest ih =>
    unfold allIntCoeffs at h
    rw [List.all_cons, Bool.and_eq_true] at h
    have hp : ((ratTrunc p.2 : ℤ) : ℚ) = p.2 := by
      have h1 := h.1
      rwa [beq_iff_eq] at h1
    have hsum : intCoeffSum (p :: rest) = ratTrunc p.2 + intCoeffSum rest := by
      simp [intCoeffSum]
    rw [hsum]
    push_cast
    rw [hp, List.map_cons, List.sum_cons, ih h.2]

/-- The candidate filter of `isThreeBody` in terms of denominators. -/
theorem threeBodyCandidates_eq (R : Reaction) :
    threeBodyCandidates R = R.reactants.filter (fun rc =>
      compHas R.products rc.1 && rc.2.den == 1
        && (compGetD R.products rc.1).den == 1) := by
  unfold threeBodyCandidates
  congr 1
  funext rc
  cases h : compFind? R.products rc.1 with
  | none => simp [compHas, h]
  | some pv =>
    simp only [compHas, compGetD, h, Option.isSome_some, Option.getD_some,
      Bool.true_and]
    rw [Bool.eq_iff_iff]
    simp [ratTrunc_cast_iff, Bool.and_eq_true, beq_iff_eq]

/-- C3 (amended): `isThreeBody` returns `true` iff exactly one reactant
species also appears among the products with integer coefficients on both
sides — the coefficients need not be equal — and every reactant and product
coefficient is an integer, and the coefficient total on the reactant side or
the product side equals exactly three. -/
theorem isThreeBody_iff (R : Reaction) :
    isThreeBody R = true ↔
      ((R.reactants.filter (fun rc =>
          compHas R.products rc.1 && rc.2.den == 1
            && (compGetD R.products rc.1).den == 1)).length = 1
       ∧ (∀ p ∈ R.reactants, p.2.den = 1)
       ∧ (∀ p ∈ R.products, p.2.den = 1)
       ∧ ((R.reactants.map (fun p => p.2)).sum = 3
          ∨ (R.products.map (fun p => p.2)).sum = 3)) := by
  unfold isThreeBody
  split_ifs with g1 g2 g3
  · refine iff_of_false (by simp) ?_
    rintro ⟨hlen, -⟩
    exact g1 (by rw [threeBodyCandidates_eq]; exact hlen)
  · refine iff_of_false (by simp) ?_
    rintro ⟨-, hint, -⟩
    rw [Bool.not_eq_true'] at g2
    exact absurd (allIntCoeffs_iff _ |>.mpr hint) (by simp [g2])
  · refine iff_of_false (by simp) ?_
    rintro ⟨-, -, hint, -⟩
    rw [Bool.not_eq_true'] at g3
    exact absurd (allIntCoeffs_iff _ |>.mpr hint) (by simp [g3])
  · rw [not_not] at g1
    simp only [Bool.not_eq_true, Bool.not_eq_false'] at g2 g3
    rw [Bool.or_eq_true, beq_iff_eq, beq_iff_eq]
    constructor
    · rintro (h | h)
      · refine ⟨by rw [← threeBodyCandidates_eq]; exact g1,
          (allIntCoeffs_iff _).mp g2, (allIntCoeffs_iff _).mp g3, Or.inl ?_⟩
        rw [← intCoeffSum_cast _ g2, h]
        norm_num
      · refine ⟨by rw [← threeBodyCandidates_eq]; exact g1,
          (allIntCoeffs_iff _).mp g2, (allIntCoeffs_iff _).mp g3, Or.inr ?_⟩
        rw [← intCoeffSum_cast _ g3, h]
        norm_num
    · rintro ⟨-, -, -, h | h⟩
      · left
        rw [← intCoeffSum_cast _ g2] at h
        exact_mod_cast h
      · right
        rw [← intCoeffSum_cast _ g3] at h
        exact_mod_cast h

/-- A reaction whose shared species `A` has different integer coefficients on
the two sides. -/
def RC3 : Reaction :=
  { reactants := [("A", 1), ("B", 2)], products := [("A", 2), ("C", 1)] }

/-- Counterexample to C3 as stated: `isThreeBody` accepts `RC3` even though
no species appears with an identical coefficient on both sides (the source
only requires both coefficients to be integers, not equal). -/
theorem isThreeBody_unequal_coeff_counterexample :
    isThreeBody RC3 = true ∧
    (RC3.reactants.filter (fun rc =>
      compFind? RC3.products rc.1 == some rc.2)).length = 0 := by
  constructor
  · unfold isThreeBody
    have hcand : (threeBodyCandidates RC3).length = 1 := by
      simp [threeBodyCandidates, RC3, compFind?, List.find?, List.filter,
        ratTrunc_one, ratTrunc_two]
    have hir : allIntCoeffs RC3.reactants = true := by
      simp [allIntCoeffs, RC3, ratTrunc_one, ratTrunc_two]
    have hip : allIntCoeffs RC3.products = true := by
      simp [allIntCoeffs, RC3, ratTrunc_one, ratTrunc_two]
    have hsum : intCoeffSum RC3.reactants = 3 := by
      norm_num [intCoeffSum, RC3, ratTrunc_one, ratTrunc_two]
    rw [if_neg (by simp [hcand]), if_neg (by simp [hir]),
      if_neg (by simp [hip]), hsum]
    simp
  · have hA : ((some (2 : ℚ)) == some (1 : ℚ)) = false := by
      rw [beq_eq_false_iff_ne]
      intro hcontra
      rw [Option.some_inj] at hcontra
      norm_num at hcontra
    simp [RC3, compFind?, List.filter, List.find?, hA]

/-! ## C4: falloff bracket resolution -/

/-- C4: after generic parsing, `FalloffReaction::setEquation` locates the
first reactant term with coefficient exactly `-1` whose name begins with
`"(+"`; with no such term it fails, with a bracket term missing from the
products it fails, and otherwise it strips the bracket entries from both
sides and records either the generic partner (`M`, leaving
`specified_collision_partner` false) or the explicit partner with efficiency
`1.0`, default efficiency `0` and `specified_collision_partner` true. -/
theorem falloff_setEquation_resolution (R : Reaction) (tb : ThirdBody)
    (htb : tb.efficiencies = []) :
    (R.reactants.find? (fun rc => rc.2 == -1 && strStartsWith rc.1 "(+") = none →
      FalloffReaction.resolveThirdBody R tb =
        .error "Reactants do not contain a pressure-dependent third body") ∧
    (∀ rc, R.reactants.find? (fun rc => rc.2 == -1 && strStartsWith rc.1 "(+")
        = some rc →
      compHas R.products rc.1 = false →
      FalloffReaction.resolveThirdBody R tb =
        .error "Unable to match third body in reactants and products") ∧
    (∀ rc, R.reactants.find? (fun rc => rc.2 == -1 && strStartsWith rc.1 "(+")
        = some rc →
      compHas R.products rc.1 = true →
      FalloffReaction.resolveThirdBody R tb = .ok (
        { R with reactants := compErase R.reactants rc.1,
                 products := compErase R.products rc.1 },
        if (rc.1.drop 2).dropRight 1 = "M" then
          { tb with specified_collision_partner := false }
        else
          { tb with default_efficiency := 0,
                    efficiencies := [((rc.1.drop 2).dropRight 1, 1)],
                    specified_collision_partner := true })) := by
  refine ⟨?_, ?_, ?_⟩
  · intro h
    simp [FalloffReaction.resolveThirdBody, h]
  · intro rc hfind hprod
    simp [FalloffReaction.resolveThirdBody, hfind, hprod]
  · intro rc hfind hprod
    by_cases hm : (rc.1.drop 2).dropRight 1 = "M"
    · simp [FalloffReaction.resolveThirdBody, hfind, hprod, hm]
    · have hnil : compHas ([] : Composition) ((rc.1.drop 2).dropRight 1) = false := rfl
      simp [FalloffReaction.resolveThirdBody, hfind, hprod, hm, htb, hnil]

/-- The parsed composition of `A (+AR) <=> B (+AR)`. -/
def RW4 : Reaction :=
  { reactants := [("A", 1), ("(+AR)", -1)], products := [("B", 1), ("(+AR)", -1)] }

/-- Witness for C4: resolving the bracket of `RW4` strips `(+AR)` from both
sides and records `AR` as the explicit partner. -/
theorem falloff_setEquation_resolution_witness :
    FalloffReaction.resolveThirdBody RW4 {} = .ok (
      { RW4 with reactants := [("A", 1)], products := [("B", 1)] },
      { default_efficiency := 0, efficiencies := [("AR", 1)],
        specified_collision_partner := true, mass_action := true }) := by
  have hne : (((1 : ℚ)) == -1) = false := beq_eq_false_iff_ne.mpr (by norm_num)
  have h := (falloff_setEquation_resolution RW4 {} rfl).2.2 ("(+AR)", -1)
    (by simp [RW4, List.find?, strStartsWith, beq_self_eq_true, hne])
    (by simp [RW4, compHas, compFind?, List.find?])
  rw [if_neg (by decide)] at h
  have hr : compErase RW4.reactants "(+AR)" = [("A", 1)] := by
    simp [RW4, compErase, List.filter, bne]
  have hp : compErase RW4.products "(+AR)" = [("B", 1)] := by
    simp [RW4, compErase, List.filter, bne]
  rw [hr, hp] at h
  exact h

/-! ## C5: the third-body invariant -/

/-- The spec's ThirdBody invariant: a specified collision partner comes with
exactly one efficiency entry of value `1` and default efficiency `0`. -/
def tbInvariant (tb : ThirdBody) : Prop :=
  tb.specified_collision_partner = true →
    (∃ s, tb.efficiencies = [(s, 1)]) ∧ tb.default_efficiency = 0

/-- Overwriting with value `1` preserves "all values are `1`". -/
theorem compSet_value_one (k : String) :
    ∀ e : Composition, (∀ x ∈ e, x.2 = 1) → ∀ x ∈ compSet e k 1, x.2 = 1 := by
  intro e
  induction e with
  | nil =>
    intro _ x hx
    simp only [compSet, List.mem_singleton] at hx
    rw [hx]
  | cons p rest ih =>
    intro he x hx
    rw [compSet] at hx
    split at hx
    · rcases List.mem_cons.mp hx with rfl | hx
      · rfl
      · exact he x (List.mem_cons_of_mem _ hx)
    · rcases List.mem_cons.mp hx with rfl | hx
      · exact he x (List.mem_cons_self _ _)
      · exact ih (fun y hy => he y (List.mem_cons_of_mem _ hy)) x hx

/-- Every entry written by the efficiency scan has value `1`. -/
theorem scanEfficiencies_values (products : Composition) :
    ∀ (reactants e : Composition), (∀ x ∈ e, x.2 = 1) →
      ∀ x ∈ scanEfficiencies reactants products e, x.2 = 1 := by
  intro reactants
  induction reactants with
  | nil => intro e he x hx; exact he x hx
  | cons rc rest ih =>
    intro e he x hx
    have step : scanEfficiencies (rc :: rest) products e
        = scanEfficiencies rest products
            (if compHas products rc.1 then compSet e rc.1 1 else e) := rfl
    rw [step] at hx
    refine ih _ ?_ x hx
    intro y hy
    split at hy
    · exact compSet_value_one _ e he y hy
    · exact he y hy

/-- `detectEfficiencies` establishes the invariant from a fresh third body. -/
theorem detectEfficiencies_invariant (R : Reaction) (tb : ThirdBody)
    (heff : tb.efficiencies = []) (hscp : tb.specified_collision_partner = false) :
    ∀ b R' tb', ThreeBodyReaction.detectEfficiencies R tb = .ok (b, R', tb') →
      tbInvariant tb' := by
  intro b R' tb' h
  have hvals : ∀ x ∈ scanEfficiencies R.reactants R.products tb.efficiencies,
      x.2 = 1 :=
    scanEfficiencies_values _ _ _ (by rw [heff]; simp)
  unfold ThreeBodyReaction.detectEfficiencies at h
  split at h
  · simp only [Except.ok.injEq, Prod.mk.injEq] at h
    intro hc
    rw [← h.2.2] at hc
    simp [hscp] at hc
  · split at h
    · simp at h
    · split at h
      · simp at h
      · rename_i hlen0 hlen1 sp hsp
        split at h
        · simp at h
        · split at h
          · simp at h
          · simp only [Except.ok.injEq, Prod.mk.injEq] at h
            intro _
            rw [← h.2.2]
            have hlen : (scanEfficiencies R.reactants R.products tb.efficiencies).length = 1 := by
              omega
            obtain ⟨x, hx⟩ := List.length_eq_one.mp hlen
            have hx1 : x.2 = 1 := hvals x (by rw [hx]; exact List.mem_singleton_self x)
            exact ⟨⟨x.1, by simp [hx, ← hx1]⟩, rfl⟩

/-- `ThreeBodyReaction::setEquation` establishes the invariant from a fresh
third body. -/
theorem tbrSetEquation_invariant (R : Reaction) (tb : ThirdBody)
    (equation : String) (okin : Option Kinetics)
    (heff : tb.efficiencies = []) (hscp : tb.specified_collision_partner = false) :
    ∀ R' tb', ThreeBodyReaction.setEquation R tb equation okin = .ok (R', tb') →
      tbInvariant tb' := by
  intro R' tb' h
  unfold ThreeBodyReaction.setEquation at h
  split at h
  · simp at h
  · rename_i R1 hparse
    split at h
    · split at h
      · simp at h
      · simp at h
      · rename_i R2 tb2 hdet
        simp only [Except.ok.injEq, Prod.mk.injEq] at h
        rw [← h.2]
        exact detectEfficiencies_invariant R1 tb heff hscp true R2 tb2 hdet
    · simp only [Except.ok.injEq, Prod.mk.injEq] at h
      rw [← h.2]
      intro hc
      rw [hscp] at hc
      cases hc

/-- `FalloffReaction::resolveThirdBody` establishes the invariant from a
fresh third body. -/
theorem falloffResolve_invariant (R : Reaction) (tb : ThirdBody)
    (heff : tb.efficiencies = []) (_hscp : tb.specified_collision_partner = false) :
    ∀ R' tb', FalloffReaction.resolveThirdBody R tb = .ok (R', tb') →
      tbInvariant tb' := by
  intro R' tb' h
  unfold FalloffReaction.resolveThirdBody at h
  split at h
  · simp at h
  · rename_i rc hfind
    split at h
    · simp at h
    · split at h
      · simp only [Except.ok.injEq, Prod.mk.injEq] at h
        rw [← h.2]
        intro hc
        simp at hc
      · simp only [Except.ok.injEq, Prod.mk.injEq] at h
        rw [← h.2]
        intro _
        rw [heff]
        exact ⟨⟨(rc.1.drop 2).dropRight 1, by simp [compHas, compFind?]⟩, rfl⟩

/-- `FalloffReaction::setEquation` establishes the invariant from a fresh
third body. -/
theorem falloffSetEquation_invariant (R : Reaction) (tb : ThirdBody)
    (equation : String) (okin : Option Kinetics)
    (heff : tb.efficiencies = []) (hscp : tb.specified_collision_partner = false) :
    ∀ R' tb', FalloffReaction.setEquation R tb equation okin = .ok (R', tb') →
      tbInvariant tb' := by
  intro R' tb' h
  unfold FalloffReaction.setEquation at h
  split at h
  · simp at h
  · exact falloffResolve_invariant _ tb heff hscp R' tb' h

/-- `setEfficiencies` never sets the partner flag, so it preserves the
invariant vacuously whenever the flag was false. -/
theorem setEfficiencies_scp (tb : ThirdBody) (node : RxnNode) :
    (tb.setEfficiencies node).specified_collision_partner
      = tb.specified_collision_partner := rfl

/-- C5: starting from a freshly constructed third body (no efficiencies, no
specified collision partner — the state every ThreeBody/Falloff reaction
constructor creates before resolving its equation), each third-body-mutating
operation — `detectEfficiencies`, the two `setEquation` overrides, and the
two `setParameters` overrides — leaves the third body satisfying the
invariant: whenever `specified_collision_partner` is true, `efficiencies`
holds exactly one entry with value `1.0` and `default_efficiency` is `0`. -/
theorem thirdBody_invariant (R : Reaction) (tb : ThirdBody)
    (equation : String) (okin : Option Kinetics) (node : RxnNode) (kin : Kinetics)
    (heff : tb.efficiencies = []) (hscp : tb.specified_collision_partner = false) :
    (∀ b R' tb', ThreeBodyReaction.detectEfficiencies R tb = .ok (b, R', tb') →
      tbInvariant tb') ∧
    (∀ R' tb', ThreeBodyReaction.setEquation R tb equation okin = .ok (R', tb') →
      tbInvariant tb') ∧
    (∀ R' tb', FalloffReaction.setEquation R tb equation okin = .ok (R', tb') →
      tbInvariant tb') ∧
    (∀ R' tb', ThreeBodyReaction.setParameters R tb node kin = .ok (R', tb') →
      tbInvariant tb') ∧
    (∀ R' tb', FalloffReaction.setParameters R tb node kin = .ok (R', tb') →
      tbInvariant tb') := by
  refine ⟨detectEfficiencies_invariant R tb heff hscp,
    tbrSetEquation_invariant R tb equation okin heff hscp,
    falloffSetEquation_invariant R tb equation okin heff hscp, ?_, ?_⟩
  · intro R' tb' h
    unfold ThreeBodyReaction.setParameters at h
    split at h
    · simp at h
    · rename_i R1 tb1 hset
      have hinv := tbrSetEquation_invariant R tb node.equation (some kin) heff hscp
        R1 tb1 hset
      split at h
      · rename_i hscp1
        simp only [Except.ok.injEq, Prod.mk.injEq] at h
        rw [← h.2]
        intro hc
        rw [setEfficiencies_scp] at hc
        rw [Bool.not_eq_true'] at hscp1
        rw [hscp1] at hc
        cases hc
      · simp only [Except.ok.injEq, Prod.mk.injEq] at h
        rw [← h.2]
        exact hinv
  · intro R' tb' h
    unfold FalloffReaction.setParameters at h
    split at h
    · simp at h
    · rename_i R1 tb1 hset
      have hinv := falloffSetEquation_invariant R tb node.equation (some kin) heff hscp
        R1 tb1 hset
      split at h
      · rename_i hscp1
        simp only [Except.ok.injEq, Prod.mk.injEq] at h
        rw [← h.2]
        intro hc
        rw [setEfficiencies_scp] at hc
        rw [Bool.not_eq_true'] at hscp1
        rw [hscp1] at hc
        cases hc
      · simp only [Except.ok.injEq, Prod.mk.injEq] at h
        rw [← h.2]
        exact hinv

/-- Concrete evaluation: detecting the partner of `RW2` from a fresh third
body. -/
theorem RW2_detect_eval :
    ThreeBodyReaction.detectEfficiencies RW2 {} = .ok (true,
      { RW2 with reactants := [("H", 1), ("O2", 1)], products := [("HO2", 1)] },
      { default_efficiency := 0, efficiencies := [("AR", 1)],
        specified_collision_partner := true, mass_action := true }) := by
  have hscan : scanEfficiencies RW2.reactants RW2.products
      ({} : ThirdBody).efficiencies = [("AR", 1)] := by
    simp [scanEfficiencies, RW2, compHas, compFind?, compSet, List.find?,
      List.foldl]
  unfold ThreeBodyReaction.detectEfficiencies
  rw [hscan]
  simp [RW2, compFind?, compErase, List.find?, List.filter, ratTrunc_one, bne]

/-- Witness for C5: the invariant holds for the third body produced by
detecting `RW2`'s explicit collision partner from a fresh third body. -/
theorem thirdBody_invariant_witness :
    tbInvariant
      { default_efficiency := 0, efficiencies := [("AR", 1)],
        specified_collision_partner := true, mass_action := true } :=
  (thirdBody_invariant RW2 {} "" none { equation := "" } kinC1 rfl rfl).1
    true _ _ RW2_detect_eval

/-! ## C6: balance tolerances -/

/-- C6: an element is flagged as unbalanced exactly when its atom-total sum
is positive and the relative difference exceeds `1e-4` (so a zero sum counts
as balanced); any flagged element forces the single aggregated
element-imbalance error, which carries exactly the flagged elements; and for
surface (non-three-dimensional) reaction phases the site-balance error fires
exactly when the site totals differ beyond relative tolerance `1e-5`. -/
theorem checkBalance_tolerances (R : Reaction) (kin : Kinetics) :
    (∀ es, R.checkBalance kin = .error (.unbalanced es) →
      es = flaggedElems (balanceMaps R kin).1 (balanceMaps R kin).2 ∧ es ≠ [] ∧
      ∀ x ∈ es, x.2.1 + x.2.2 > 0 ∧ |x.2.2 - x.2.1| / (x.2.1 + x.2.2) > 1 / 10000) ∧
    (∀ e r p, (e, r, p) ∈ flaggedElems (balanceMaps R kin).1 (balanceMaps R kin).2 ↔
      ((e, r) ∈ (balanceMaps R kin).1 ∧ p = compGetD (balanceMaps R kin).2 e ∧
        r + p > 0 ∧ |p - r| / (r + p) > 1 / 10000)) ∧
    (∀ rs ps, R.checkBalance kin = .error (.unbalancedSites rs ps) →
      kin.reactionPhase.nDim ≠ 3 ∧ rs = reacSites R kin ∧ ps = prodSites R kin ∧
      |rs - ps| > 1 / 100000 * (rs + ps)) ∧
    (flaggedElems (balanceMaps R kin).1 (balanceMaps R kin).2 = [] →
      kin.reactionPhase.nDim ≠ 3 →
      (R.checkBalance kin
          = .error (.unbalancedSites (reacSites R kin) (prodSites R kin)) ↔
        |reacSites R kin - prodSites R kin|
          > 1 / 100000 * (reacSites R kin + prodSites R kin))) ∧
    (flaggedElems (balanceMaps R kin).1 (balanceMaps R kin).2 ≠ [] →
      R.checkBalance kin = .error (.unbalanced
        (flaggedElems (balanceMaps R kin).1 (balanceMaps R kin).2))) := by
  have hmem : ∀ e r p,
      (e, r, p) ∈ flaggedElems (balanceMaps R kin).1 (balanceMaps R kin).2 ↔
      ((e, r) ∈ (balanceMaps R kin).1 ∧ p = compGetD (balanceMaps R kin).2 e ∧
        r + p > 0 ∧ |p - r| / (r + p) > 1 / 10000) := by
    intro e r p
    unfold flaggedElems
    rw [List.mem_filterMap]
    constructor
    · rintro ⟨el, hel, hfe⟩
      split at hfe
      · rename_i hcond
        rw [Option.some_inj, Prod.mk.injEq, Prod.mk.injEq] at hfe
        obtain ⟨h1, h2, h3⟩ := hfe
        subst h1
        subst h2
        subst h3
        exact ⟨hel, rfl, hcond.1, hcond.2⟩
      · cases hfe
    · rintro ⟨hmemb, rfl, hpos, hrel⟩
      exact ⟨(e, r), hmemb, by rw [if_pos ⟨hpos, hrel⟩]⟩
  refine ⟨?_, hmem, ?_, ?_, ?_⟩
  · intro es hes
    unfold Reaction.checkBalance at hes
    by_cases hf : flaggedElems (balanceMaps R kin).1 (balanceMaps R kin).2 ≠ []
    · rw [if_pos hf] at hes
      simp only [Except.error.injEq, CheckError.unbalanced.injEq] at hes
      subst hes
      refine ⟨rfl, hf, ?_⟩
      intro x hx
      obtain ⟨e, r, p⟩ := x
      have := (hmem e r p).mp hx
      exact ⟨this.2.2.1, this.2.2.2⟩
    · rw [if_neg hf] at hes
      split at hes
      · simp at hes
      · split at hes <;> simp at hes
  · intro rs ps hes
    unfold Reaction.checkBalance at hes
    by_cases hf : flaggedElems (balanceMaps R kin).1 (balanceMaps R kin).2 ≠ []
    · rw [if_pos hf] at hes
      simp at hes
    · rw [if_neg hf] at hes
      by_cases h3 : kin.reactionPhase.nDim = 3
      · rw [if_pos h3] at hes
        simp at hes
      · rw [if_neg h3] at hes
        split at hes
        · rename_i hcond
          simp only [Except.error.injEq, CheckError.unbalancedSites.injEq] at hes
          obtain ⟨h1, h2⟩ := hes
          subst h1
          subst h2
          exact ⟨h3, rfl, rfl, hcond⟩
        · simp at hes
  · intro hf h3
    unfold Reaction.checkBalance
    rw [if_neg (by simpa using hf), if_neg h3]
    constructor
    · intro h
      split at h
      · rename_i hcond
        exact hcond
      · simp at h
    · intro hcond
      rw [if_pos hcond]
  · intro hne
    unfold Reaction.checkBalance
    rw [if_pos hne]

/-- The gas phase for the spec's balance examples: species `H2`, `O2`, `H2O`
over elements `H`, `O`. -/
def phG : ThermoPhase where
  elements := ["H", "O"]
  species := ["H2", "O2", "H2O"]
  nAtoms := fun k m =>
    if k = 0 ∧ m = 0 then 2
    else if k = 1 ∧ m = 1 then 2
    else if k = 2 ∧ m = 0 then 2
    else if k = 2 ∧ m = 1 then 1
    else 0
  siteSize := fun _ => 1
  nDim := 3
  standardConcentrationUnits := unitsOne

/-- A bulk mechanism over `phG`. -/
def kinG : Kinetics where
  species := ["H2", "O2", "H2O"]
  skipUndeclaredSpecies := false
  skipUndeclaredThirdBodies := false
  speciesPhase := fun _ => phG
  reactionPhase := phG
  surfacePhase := phG

/-- The unbalanced reaction `H2 + O2 => H2O`. -/
def RH2O2 : Reaction :=
  { reactants := [("H2", 1), ("O2", 1)], products := [("H2O", 1)],
    reversible := false }

/-- Concrete evaluation: the flagged-element list of `H2 + O2 => H2O` is
exactly oxygen at reactant total `2` and product total `1`. -/
theorem RH2O2_flagged_eval :
    flaggedElems (balanceMaps RH2O2 kinG).1 (balanceMaps RH2O2 kinG).2
      = [("O", 2, 1)] := by
  have hmaps : balanceMaps RH2O2 kinG =
      ([("H", 2), ("O", 2)], [("H", 2), ("O", 1)]) := by
    simp [balanceMaps, RH2O2, kinG, phG, ThermoPhase.speciesIndex,
      List.findIdx, List.findIdx.go, List.range_succ, compSet, compAdd,
      List.foldl]
    try norm_num
  rw [hmaps]
  simp [flaggedElems, List.filterMap, compGetD, compFind?, List.find?]
  try norm_num

/-- Concrete evaluation: `H2 + O2 => H2O` fails the element balance with
oxygen at reactant total `2` and product total `1`. -/
theorem RH2O2_checkBalance_eval :
    RH2O2.checkBalance kinG = .error (.unbalanced [("O", 2, 1)]) := by
  unfold Reaction.checkBalance
  rw [RH2O2_flagged_eval]
  simp

/-- Witness for C6: the tolerance facts extracted from the concrete failure
of `H2 + O2 => H2O`, and the error-firing direction at the same input. -/
theorem checkBalance_tolerances_witness :
    (([("O", 2, 1)] : List (String × ℚ × ℚ))
      = flaggedElems (balanceMaps RH2O2 kinG).1 (balanceMaps RH2O2 kinG).2 ∧
    ([("O", 2, 1)] : List (String × ℚ × ℚ)) ≠ [] ∧
    ∀ x ∈ ([("O", 2, 1)] : List (String × ℚ × ℚ)),
      x.2.1 + x.2.2 > 0 ∧ |x.2.2 - x.2.1| / (x.2.1 + x.2.2) > 1 / 10000) ∧
    RH2O2.checkBalance kinG = .error (.unbalanced
      (flaggedElems (balanceMaps RH2O2 kinG).1 (balanceMaps RH2O2 kinG).2)) :=
  ⟨(checkBalance_tolerances RH2O2 kinG).1 [("O", 2, 1)] RH2O2_checkBalance_eval,
    (checkBalance_tolerances RH2O2 kinG).2.2.2.2
      (by rw [RH2O2_flagged_eval]; simp)⟩

/-! ## C9: rate-coefficient units -/

/-- Folding `stackUpdate` appends the mapped entries. -/
theorem foldl_stackUpdate (f : String × ℚ → Units) (e : String × ℚ → ℚ) :
    ∀ (l : Composition) (s : UnitStack),
      l.foldl (fun s x => stackUpdate s (f x) (e x)) s
        = s ++ l.map (fun x => (f x, e x)) := by
  intro l
  induction l with
  | nil => intro s; simp
  | cons x rest ih =>
    intro s
    rw [List.foldl_cons, ih]
    simp [stackUpdate]

/-- Folding a guarded `stackUpdate` appends the mapped entries of the
filtered list. -/
theorem foldl_stackUpdate_filter (p : String × ℚ → Bool) (f : String × ℚ → Units)
    (e : String × ℚ → ℚ) :
    ∀ (l : Composition) (s : UnitStack),
      l.foldl (fun s x => if p x then stackUpdate s (f x) (e x) else s) s
        = s ++ (l.filter p).map (fun x => (f x, e x)) := by
  intro l
  induction l with
  | nil => intro s; simp
  | cons x rest ih =>
    intro s
    rw [List.foldl_cons]
    by_cases hp : p x = true
    · rw [if_pos hp, ih]
      simp [stackUpdate, List.filter_cons, hp]
    · rw [if_neg hp, ih]
      simp [List.filter_cons, hp]

/-- C9: `calculateRateCoeffUnits` returns an empty unit stack for an invalid
reaction; otherwise it starts from the reaction phase's standard
concentration per second, appends one inverse per-species concentration
stage raised to the order magnitude for every explicit order, one per
reactant not covered by an explicit order raised to its stoichiometric
coefficient — skipping the generic `M` and every species whose name begins
with `"(+"` — and exactly one additional inverse concentration stage when
the reaction carries a third body. -/
theorem calculateRateCoeffUnits_spec (R : Reaction) (kin : Kinetics) :
    (R.m_valid = false → R.calculateRateCoeffUnits kin = []) ∧
    (R.m_valid = true → R.calculateRateCoeffUnits kin =
      [(kin.reactionPhase.standardConcentrationUnits, 0),
       (kin.reactionPhase.standardConcentrationUnits, 1),
       (perSecond, 1)]
      ++ R.orders.map
          (fun o => ((kin.speciesPhase o.1).standardConcentrationUnits, -o.2))
      ++ (R.reactants.filter (fun rc =>
            !(rc.1 == "M" || strStartsWith rc.1 "(+") && !compHas R.orders rc.1)).map
          (fun rc => ((kin.speciesPhase rc.1).standardConcentrationUnits, -rc.2))
      ++ (if R.third_body.isSome then
            [(kin.reactionPhase.standardConcentrationUnits, -1)] else [])) := by
  constructor
  · intro hvalid
    simp [Reaction.calculateRateCoeffUnits, hvalid]
  · intro hvalid
    have hfun : (fun (s : UnitStack) (rc : String × ℚ) =>
        if rc.1 == "M" || strStartsWith rc.1 "(+" then s
        else if compHas R.orders rc.1 then s
        else stackUpdate s (kin.speciesPhase rc.1).standardConcentrationUnits (-rc.2))
        = (fun (s : UnitStack) (rc : String × ℚ) =>
          if !(rc.1 == "M" || strStartsWith rc.1 "(+") && !compHas R.orders rc.1 then
            stackUpdate s (kin.speciesPhase rc.1).standardConcentrationUnits (-rc.2)
          else s) := by
      funext s rc
      by_cases h1 : (rc.1 == "M" || strStartsWith rc.1 "(+") = true
      · simp [h1]
      · by_cases h2 : compHas R.orders rc.1 = true <;> simp [h1, h2]
    simp only [Reaction.calculateRateCoeffUnits, hvalid, Bool.not_true,
      Bool.false_eq_true, if_false, hfun]
    rw [foldl_stackUpdate (fun o => (kin.speciesPhase o.1).standardConcentrationUnits)
      (fun o => -o.2),
      foldl_stackUpdate_filter _ (fun rc => (kin.speciesPhase rc.1).standardConcentrationUnits)
      (fun rc => -rc.2)]
    by_cases htb : R.third_body.isSome = true
    · simp [htb, stackJoin, stackUpdate, stackFirstUnit]
    · simp [htb, stackJoin, stackUpdate, stackFirstUnit]

/-- A valid three-body-style reaction over `kinG` with a generic `M`
pseudo-species and an explicit order. -/
def RW9 : Reaction :=
  { reactants := [("H2", 1), ("M", 1), ("(+X)", -1), ("O2", 2)],
    products := [("H2O", 2)], orders := [("O2", 1/2)], reversible := false,
    third_body := some {} }

/-- Witness for C9: the unit stack of `RW9` under `kinG` — the orders stage,
the `H2` stage (`M` and `(+X)` skipped, `O2` covered by its order), and one
trailing third-body stage. -/
theorem calculateRateCoeffUnits_spec_witness :
    RW9.calculateRateCoeffUnits kinG =
      [(unitsOne, 0), (unitsOne, 1), (perSecond, 1),
       (unitsOne, -(1/2)), (unitsOne, -1), (unitsOne, -1)] := by
  have h := (calculateRateCoeffUnits_spec RW9 kinG).2 rfl
  rw [h]
  simp [RW9, kinG, phG, compHas, compFind?, List.find?, List.filter,
    strStartsWith, List.isPrefixOf]

/-! ## C8: parsing the standard equation shapes -/

/-- The tokenizer consumes a whitespace-free chunk into the accumulator. -/
theorem tokenizeChars_chunk (rest : List Char) :
    ∀ (w acc : List Char), (∀ ch ∈ w, ch.isWhitespace = false) →
      tokenizeChars (w ++ rest) acc = tokenizeChars rest (w.reverse ++ acc) := by
  intro w
  induction w with
  | nil => intro acc _; simp
  | cons ch cs ih =>
    intro acc hw
    have hch : ch.isWhitespace = false := hw ch (List.mem_cons_self _ _)
    rw [List.cons_append, tokenizeChars, if_neg (by simp [hch]),
      ih (ch :: acc) (fun x hx => hw x (List.mem_cons_of_mem _ hx))]
    simp

/-- The tokenizer emits a word at a space. -/
theorem tokenizeChars_sep (w rest : List Char)
    (hw : ∀ ch ∈ w, ch.isWhitespace = false) (hne : w ≠ []) :
    tokenizeChars (w ++ ' ' :: rest) [] = String.mk w :: tokenizeChars rest [] := by
  rw [tokenizeChars_chunk _ w [] hw, tokenizeChars,
    if_pos (by decide), if_neg (by simp [hne]), List.append_nil,
    List.reverse_reverse]

/-- The tokenizer emits a trailing word. -/
theorem tokenizeChars_last (w : List Char)
    (hw : ∀ ch ∈ w, ch.isWhitespace = false) (hne : w ≠ []) :
    tokenizeChars w [] = [String.mk w] := by
  have h := tokenizeChars_chunk [] w [] hw
  rw [List.append_nil] at h
  rw [h, tokenizeChars]
  simp [hne]

/-- String-level word splitting. -/
theorem tokenizeChars_sepString (t : String) (rest : List Char)
    (ht : ∀ ch ∈ t.data, ch.isWhitespace = false) (hne : t.data ≠ []) :
    tokenizeChars (t.data ++ ' ' :: rest) [] = t :: tokenizeChars rest [] := by
  rw [tokenizeChars_sep t.data rest ht hne]

/-- A bare species name: non-empty, whitespace-free, distinct from the
operator tokens, and not beginning with the falloff prefix. -/
def goodName (s : String) : Prop :=
  s.data ≠ [] ∧ (∀ ch ∈ s.data, ch.isWhitespace = false) ∧
  s ≠ "+" ∧ s ≠ "<=>" ∧ s ≠ "=" ∧ s ≠ "=>" ∧ strStartsWith s "(+" = false

/-- A bare species name never completes a term. -/
theorem triggerTok_goodName (s : String) (h : goodName s) : triggerTok s = false := by
  obtain ⟨-, -, h1, h2, h3, h4, h5⟩ := h
  unfold triggerTok
  rw [beq_eq_false_iff_ne.mpr h1, beq_eq_false_iff_ne.mpr h2,
    beq_eq_false_iff_ne.mpr h3, beq_eq_false_iff_ne.mpr h4, h5]
  rfl

/-- A non-trigger token is none of the separator tokens. -/
theorem triggerTok_false_parts (t : String) (h : triggerTok t = false) :
    (t == "<=>") = false ∧ (t == "=") = false ∧ (t == "=>") = false := by
  unfold triggerTok at h
  simp only [Bool.or_eq_false_iff] at h
  exact ⟨h.1.1.2, h.1.2, h.2⟩

/-- The scan is finished once the index reaches the token count. -/
theorem parseLoop_done (tokens : List String) (okin : Option Kinetics)
    (fuel i : Nat) (lu : Option Nat) (onReac : Bool) (R : Reaction)
    (h : ¬i < tokens.length) :
    parseLoop tokens okin fuel i lu onReac R = .ok R := by
  cases fuel with
  | zero => rfl
  | succ n => rw [parseLoop, if_neg h]

/-- Scan step on a non-trigger token. -/
theorem parseLoop_step_skip (tokens : List String) (okin : Option Kinetics)
    (fuel f i j : Nat) (lu : Option Nat) (onReac : Bool) (R : Reaction)
    (hf : fuel = f + 1) (hj : j = i + 1)
    (hi : i < tokens.length) (htr : triggerTok (tokens.getD i "") = false) :
    parseLoop tokens okin fuel i lu onReac R
      = parseLoop tokens okin f j lu onReac R := by
  subst hf
  subst hj
  obtain ⟨h1, h2, h3⟩ := triggerTok_false_parts _ htr
  rw [parseLoop, if_pos hi, if_neg (by rw [htr]; exact Bool.false_ne_true),
    if_neg (by rw [h1, h2]; exact Bool.false_ne_true),
    if_neg (by rw [h3]; exact Bool.false_ne_true)]

/-- Scan step completing a term on a plain `"+"`-like trigger. -/
theorem parseLoop_step_term (tokens : List String) (okin : Option Kinetics)
    (fuel f i j : Nat) (lu : Option Nat) (onReac : Bool) (R : Reaction)
    (sp : String) (st : ℚ)
    (hf : fuel = f + 1) (hj : j = i + 1) (hi : i < tokens.length)
    (htr : triggerTok (tokens.getD i "") = true)
    (hne1 : (tokens.getD i "" == "<=>") = false)
    (hne2 : (tokens.getD i "" == "=") = false)
    (hne3 : (tokens.getD i "" == "=>") = false)
    (hss : speciesStoich tokens i lu = .ok (sp, st)) :
    parseLoop tokens okin fuel i lu onReac R
      = parseLoop tokens okin f j (some i) onReac
          (applyTerm okin onReac R sp st) := by
  subst hf
  subst hj
  rw [parseLoop, if_pos hi, if_pos htr, hss]
  simp only [hne1, hne2, hne3, Bool.or_self, Bool.false_or, if_false,
    Bool.false_eq_true]

/-- Scan step completing a term on a forward/reversible separator. -/
theorem parseLoop_step_arrowFwd (tokens : List String) (okin : Option Kinetics)
    (fuel f i j : Nat) (lu : Option Nat) (onReac : Bool) (R : Reaction)
    (sp : String) (st : ℚ)
    (hf : fuel = f + 1) (hj : j = i + 1) (hi : i < tokens.length)
    (htr : triggerTok (tokens.getD i "") = true)
    (hor : (tokens.getD i "" == "<=>" || tokens.getD i "" == "=") = true)
    (hss : speciesStoich tokens i lu = .ok (sp, st)) :
    parseLoop tokens okin fuel i lu onReac R
      = parseLoop tokens okin f j (some i) false
          { applyTerm okin onReac R sp st with reversible := true } := by
  subst hf
  subst hj
  rw [parseLoop, if_pos hi, if_pos htr, hss]
  simp only [hor, if_true]

/-- Scan step completing a term on the irreversible separator `"=>"`. -/
theorem parseLoop_step_arrowRev (tokens : List String) (okin : Option Kinetics)
    (fuel f i j : Nat) (lu : Option Nat) (onReac : Bool) (R : Reaction)
    (sp : String) (st : ℚ)
    (hf : fuel = f + 1) (hj : j = i + 1) (hi : i < tokens.length)
    (htr : triggerTok (tokens.getD i "") = true)
    (hne1 : (tokens.getD i "" == "<=>") = false)
    (hne2 : (tokens.getD i "" == "=") = false)
    (heq : (tokens.getD i "" == "=>") = true)
    (hss : speciesStoich tokens i lu = .ok (sp, st)) :
    parseLoop tokens okin fuel i lu onReac R
      = parseLoop tokens okin f j (some i) false
          { applyTerm okin onReac R sp st with reversible := false } := by
  subst hf
  subst hj
  rw [parseLoop, if_pos hi, if_pos htr, hss]
  simp only [hne1, hne2, heq, Bool.or_self, if_true, if_false,
    Bool.false_eq_true]

/-- Modelled-parser fact: `fpValueCheck` reads `"2"`. -/
theorem fpValueCheck_two : fpValueCheck "2" = some 2 := by
  have hd : digitsVal ['2'] = 2 := by decide
  simp [fpValueCheck, fpSignSplit, List.dropWhile, List.takeWhile, hd]

/-- Modelled-parser fact: `fpValueCheck` reads `"3"`. -/
theorem fpValueCheck_three : fpValueCheck "3" = some 3 := by
  have hd : digitsVal ['3'] = 3 := by decide
  simp [fpValueCheck, fpSignSplit, List.dropWhile, List.takeWhile, hd]

/-- The parse run of `A => B` for bare species names. -/
theorem parse_run_irrev (a b : String) (ha : goodName a) (hb : goodName b)
    (okin : Option Kinetics) :
    parseReactionEquation {} (a ++ " => " ++ b) okin
      = .ok (applyTerm okin false
          { applyTerm okin true {} a 1 with reversible := false } b 1) := by
  have htok : tokenizeString (a ++ " => " ++ b) = [a, "=>", b] := by
    have hdata : (a ++ " => " ++ b).data
        = a.data ++ ' ' :: (("=>" : String).data ++ ' ' :: b.data) := by
      have h1 : (" => " : String).data = [' ', '=', '>', ' '] := rfl
      have h2 : ("=>" : String).data = ['=', '>'] := rfl
      simp [String.data_append, h1, h2]
    rw [tokenizeString, hdata,
      tokenizeChars_sepString a _ ha.2.1 ha.1,
      tokenizeChars_sepString "=>" _ (by decide) (by decide),
      tokenizeChars_last b.data hb.2.1 hb.1]
  rw [parseReactionEquation, htok]
  rw [show ([a, "=>", b] ++ ["+"]) = [a, "=>", b, "+"] from by simp]
  rw [show ([a, "=>", b, "+"] : List String).length = 4 from by simp]
  rw [parseLoop_step_arrowRev [a, "=>", b, "+"] okin 4 3 1 2 none true {} a 1
    (by norm_num) (by norm_num) (by simp)
    (by simp [triggerTok])
    (by simp) (by simp) (by simp)
    (by simp [speciesStoich, lastUsedEq])]
  rw [parseLoop_step_skip [a, "=>", b, "+"] okin 3 2 2 3 (some 1) false _
    (by norm_num) (by norm_num) (by simp)
    (by simp [triggerTok_goodName b hb])]
  rw [parseLoop_step_term [a, "=>", b, "+"] okin 2 1 3 4 (some 1) false _ b 1
    (by norm_num) (by norm_num) (by simp)
    (by simp [triggerTok])
    (by simp) (by simp) (by simp)
    (by simp [speciesStoich, lastUsedEq])]
  rw [parseLoop_done [a, "=>", b, "+"] okin 1 4 (some 3) false _ (by simp)]

/-- The parse run of `A + B <=> C + D` for bare species names. -/
theorem parse_run_rev (a b c d : String) (ha : goodName a) (hb : goodName b)
    (hc : goodName c) (hd : goodName d) (okin : Option Kinetics) :
    parseReactionEquation {} (a ++ " + " ++ b ++ " <=> " ++ c ++ " + " ++ d) okin
      = .ok (applyTerm okin false (applyTerm okin false
          { applyTerm okin true (applyTerm okin true {} a 1) b 1
            with reversible := true } c 1) d 1) := by
  have htok : tokenizeString (a ++ " + " ++ b ++ " <=> " ++ c ++ " + " ++ d)
      = [a, "+", b, "<=>", c, "+", d] := by
    have hdata : (a ++ " + " ++ b ++ " <=> " ++ c ++ " + " ++ d).data
        = a.data ++ ' ' :: (("+" : String).data ++ ' '
          :: (b.data ++ ' ' :: (("<=>" : String).data ++ ' '
          :: (c.data ++ ' ' :: (("+" : String).data ++ ' ' :: d.data))))) := by
      have h1 : (" + " : String).data = [' ', '+', ' '] := rfl
      have h2 : (" <=> " : String).data = [' ', '<', '=', '>', ' '] := rfl
      have h3 : ("+" : String).data = ['+'] := rfl
      have h4 : ("<=>" : String).data = ['<', '=', '>'] := rfl
      simp [String.data_append, h1, h2, h3, h4]
    rw [tokenizeString, hdata,
      tokenizeChars_sepString a _ ha.2.1 ha.1,
      tokenizeChars_sepString "+" _ (by decide) (by decide),
      tokenizeChars_sepString b _ hb.2.1 hb.1,
      tokenizeChars_sepString "<=>" _ (by decide) (by decide),
      tokenizeChars_sepString c _ hc.2.1 hc.1,
      tokenizeChars_sepString "+" _ (by decide) (by decide),
      tokenizeChars_last d.data hd.2.1 hd.1]
  rw [parseReactionEquation, htok]
  rw [show ([a, "+", b, "<=>", c, "+", d] ++ ["+"])
      = [a, "+", b, "<=>", c, "+", d, "+"] from by simp]
  rw [show ([a, "+", b, "<=>", c, "+", d, "+"] : List String).length = 8 from by simp]
  rw [parseLoop_step_term [a, "+", b, "<=>", c, "+", d, "+"] okin 8 7 1 2
    none true {} a 1 (by norm_num) (by norm_num) (by simp)
    (by simp [triggerTok]) (by simp) (by simp) (by simp)
    (by simp [speciesStoich, lastUsedEq])]
  rw [parseLoop_step_skip [a, "+", b, "<=>", c, "+", d, "+"] okin 7 6 2 3
    (some 1) true _ (by norm_num) (by norm_num) (by simp)
    (by simp [triggerTok_goodName b hb])]
  rw [parseLoop_step_arrowFwd [a, "+", b, "<=>", c, "+", d, "+"] okin 6 5 3 4
    (some 1) true _ b 1 (by norm_num) (by norm_num) (by simp)
    (by simp [triggerTok]) (by simp)
    (by simp [speciesStoich, lastUsedEq])]
  rw [parseLoop_step_skip [a, "+", b, "<=>", c, "+", d, "+"] okin 5 4 4 5
    (some 3) false _ (by norm_num) (by norm_num) (by simp)
    (by simp [triggerTok_goodName c hc])]
  rw [parseLoop_step_term [a, "+", b, "<=>", c, "+", d, "+"] okin 4 3 5 6
    (some 3) false _ c 1 (by norm_num) (by norm_num) (by simp)
    (by simp [triggerTok]) (by simp) (by simp) (by simp)
    (by simp [speciesStoich, lastUsedEq])]
  rw [parseLoop_step_skip [a, "+", b, "<=>", c, "+", d, "+"] okin 3 2 6 7
    (some 5) false _ (by norm_num) (by norm_num) (by simp)
    (by simp [triggerTok_goodName d hd])]
  rw [parseLoop_step_term [a, "+", b, "<=>", c, "+", d, "+"] okin 2 1 7 8
    (some 5) false _ d 1 (by norm_num) (by norm_num) (by simp)
    (by simp [triggerTok]) (by simp) (by simp) (by simp)
    (by simp [speciesStoich, lastUsedEq])]
  rw [parseLoop_done [a, "+", b, "<=>", c, "+", d, "+"] okin 1 8 (some 7)
    false _ (by simp)]

/-- The parse run of `2 A + B = 3 C` for bare species names. -/
theorem parse_run_coeff (a b c : String) (ha : goodName a) (hb : goodName b)
    (hc : goodName c) (okin : Option Kinetics) :
    parseReactionEquation {} ("2 " ++ a ++ " + " ++ b ++ " = 3 " ++ c) okin
      = .ok (applyTerm okin false
          { applyTerm okin true (applyTerm okin true {} a 2) b 1
            with reversible := true } c 3) := by
  have htok : tokenizeString ("2 " ++ a ++ " + " ++ b ++ " = 3 " ++ c)
      = ["2", a, "+", b, "=", "3", c] := by
    have hdata : ("2 " ++ a ++ " + " ++ b ++ " = 3 " ++ c).data
        = ("2" : String).data ++ ' ' :: (a.data ++ ' '
          :: (("+" : String).data ++ ' ' :: (b.data ++ ' '
          :: (("=" : String).data ++ ' ' :: (("3" : String).data ++ ' '
          :: c.data))))) := by
      have h1 : ("2 " : String).data = ['2', ' '] := rfl
      have h2 : (" + " : String).data = [' ', '+', ' '] := rfl
      have h3 : (" = 3 " : String).data = [' ', '=', ' ', '3', ' '] := rfl
      have h4 : ("+" : String).data = ['+'] := rfl
      have h5 : ("=" : String).data = ['='] := rfl
      have h6 : ("3" : String).data = ['3'] := rfl
      have h7 : ("2" : String).data = ['2'] := rfl
      simp [String.data_append, h1, h2, h3, h4, h5, h6, h7]
    rw [tokenizeString, hdata,
      tokenizeChars_sepString "2" _ (by decide) (by decide),
      tokenizeChars_sepString a _ ha.2.1 ha.1,
      tokenizeChars_sepString "+" _ (by decide) (by decide),
      tokenizeChars_sepString b _ hb.2.1 hb.1,
      tokenizeChars_sepString "=" _ (by decide) (by decide),
      tokenizeChars_sepString "3" _ (by decide) (by decide),
      tokenizeChars_last c.data hc.2.1 hc.1]
  rw [parseReactionEquation, htok]
  rw [show (["2", a, "+", b, "=", "3", c] ++ ["+"])
      = ["2", a, "+", b, "=", "3", c, "+"] from by simp]
  rw [show (["2", a, "+", b, "=", "3", c, "+"] : List String).length = 8 from by simp]
  rw [parseLoop_step_skip ["2", a, "+", b, "=", "3", c, "+"] okin 8 7 1 2
    none true {} (by norm_num) (by norm_num) (by simp)
    (by simp [triggerTok_goodName a ha])]
  rw [parseLoop_step_term ["2", a, "+", b, "=", "3", c, "+"] okin 7 6 2 3
    none true {} a 2 (by norm_num) (by norm_num) (by simp)
    (by simp [triggerTok]) (by simp) (by simp) (by simp)
    (by simp [speciesStoich, lastUsedEq, fpValueCheck_two])]
  rw [parseLoop_step_skip ["2", a, "+", b, "=", "3", c, "+"] okin 6 5 3 4
    (some 2) true _ (by norm_num) (by norm_num) (by simp)
    (by simp [triggerTok_goodName b hb])]
  rw [parseLoop_step_arrowFwd ["2", a, "+", b, "=", "3", c, "+"] okin 5 4 4 5
    (some 2) true _ b 1 (by norm_num) (by norm_num) (by simp)
    (by simp [triggerTok]) (by simp)
    (by simp [speciesStoich, lastUsedEq])]
  rw [parseLoop_step_skip ["2", a, "+", b, "=", "3", c, "+"] okin 4 3 5 6
    (some 4) false _ (by norm_num) (by norm_num) (by simp)
    (by simp [triggerTok, strStartsWith, List.isPrefixOf])]
  rw [parseLoop_step_skip ["2", a, "+", b, "=", "3", c, "+"] okin 3 2 6 7
    (some 4) false _ (by norm_num) (by norm_num) (by simp)
    (by simp [triggerTok_goodName c hc])]
  rw [parseLoop_step_term ["2", a, "+", b, "=", "3", c, "+"] okin 2 1 7 8
    (some 4) false _ c 3 (by norm_num) (by norm_num) (by simp)
    (by simp [triggerTok]) (by simp) (by simp) (by simp)
    (by simp [speciesStoich, lastUsedEq, fpValueCheck_three])]
  rw [parseLoop_done ["2", a, "+", b, "=", "3", c, "+"] okin 1 8 (some 7)
    false _ (by simp)]

/-- C8: for all distinct bare species names, `"A + B <=> C + D"` parses to
reactants `{A:1, B:1}`, products `{C:1, D:1}` and `reversible = true`;
`"A => B"` parses to `reversible = false`; and `"2 A + B = 3 C"` parses to
reactants `{A:2, B:1}` and products `{C:3}` with `reversible = true`. -/
theorem parse_equation_shapes (a b c d : String)
    (ha : goodName a) (hb : goodName b) (hc : goodName c) (hd : goodName d)
    (hab : a ≠ b) (hcd : c ≠ d) (okin : Option Kinetics) :
    (∃ v, parseReactionEquation {}
        (a ++ " + " ++ b ++ " <=> " ++ c ++ " + " ++ d) okin = .ok v ∧
      v.reactants = [(a, 1), (b, 1)] ∧ v.products = [(c, 1), (d, 1)] ∧
      v.reversible = true) ∧
    (∃ v, parseReactionEquation {} (a ++ " => " ++ b) okin = .ok v ∧
      v.reactants = [(a, 1)] ∧ v.products = [(b, 1)] ∧ v.reversible = false) ∧
    (∃ v, parseReactionEquation {} ("2 " ++ a ++ " + " ++ b ++ " = 3 " ++ c) okin
        = .ok v ∧
      v.reactants = [(a, 2), (b, 1)] ∧ v.products = [(c, 3)] ∧
      v.reversible = true) := by
  have hab' : (a == b) = false := beq_eq_false_iff_ne.mpr hab
  have hcd' : (c == d) = false := beq_eq_false_iff_ne.mpr hcd
  refine ⟨⟨_, parse_run_rev a b c d ha hb hc hd okin, ?_, ?_, ?_⟩,
    ⟨_, parse_run_irrev a b ha hb okin, ?_, ?_, ?_⟩,
    ⟨_, parse_run_coeff a b c ha hb hc okin, ?_, ?_, ?_⟩⟩ <;>
    simp [applyTerm_reactants, applyTerm_products, applyTerm_reversible,
      compAdd, hab', hcd']

/-- Witness for C8: the three shapes at species names `A`, `B`, `C`, `D`
without a mechanism. -/
theorem parse_equation_shapes_witness :
    (∃ v, parseReactionEquation {}
        ("A" ++ " + " ++ "B" ++ " <=> " ++ "C" ++ " + " ++ "D") none = .ok v ∧
      v.reactants = [("A", 1), ("B", 1)] ∧ v.products = [("C", 1), ("D", 1)] ∧
      v.reversible = true) ∧
    (∃ v, parseReactionEquation {} ("A" ++ " => " ++ "B") none = .ok v ∧
      v.reactants = [("A", 1)] ∧ v.products = [("B", 1)] ∧
      v.reversible = false) ∧
    (∃ v, parseReactionEquation {}
        ("2 " ++ "A" ++ " + " ++ "B" ++ " = 3 " ++ "C") none = .ok v ∧
      v.reactants = [("A", 2), ("B", 1)] ∧ v.products = [("C", 3)] ∧
      v.reversible = true) :=
  parse_equation_shapes "A" "B" "C" "D"
    (by unfold goodName; decide) (by unfold goodName; decide)
    (by unfold goodName; decide) (by unfold goodName; decide)
    (by decide) (by decide) none

end Cantera
